import Mathlib

/-!
# A shallow embedding of `curve.py` (kgutwin/curve-gcode)

This file models the two-pass G-code curve transform of `src/curve.py`:
the command model (`GCode.parse` / `GCode.str`), the interpolator
(`interpolate`), the bounds scanner (`GCodeScanner`), and the curve
translator (`GCodeTranslator`), together with the replay-on-transition
driver loop (`GCodeProcessor.handle_line`).

Modelling conventions:
* Python floats are modelled as exact real numbers (`ℝ`); values that the
  program only ever obtains by parsing decimal text are rational and the
  scanner accumulates them as `ℚ`.
* Python exceptions are modelled by the result type `Res`: `.exn e` is a
  raised exception `e`, and `.hang` is reserved for the driver loop
  running out of fuel (the Python loop has no bound; `.hang` marks true
  divergence, see `transReplay`).
* `9e999`, which Python evaluates to the float `inf` (the initial value of
  `min_x`/`min_y`), is modelled by `Option ℚ` with `none` for infinity.
-/

/-- The Python exceptions `curve.py` can raise, by site:
* `zeroDiv`  — `ZeroDivisionError` (division by zero in `xmid`/`ymid`/
  `layer_depression`);
* `valueErr` — `ValueError` (`float()` of a non-numeric string, or
  `math.sqrt` of a negative number);
* `typeErr`  — `TypeError` (`z - self.first_z` with `first_z is None`);
* `keyErr`   — `KeyError` (missing dictionary key);
* `nameErr`  — `NameError` (reading `new_g` when the loop never ran);
* `nanVal`   — modelling artifact: Python float arithmetic on `inf`
  produces a silent NaN in `xmid`/`ymid` when `min_x`/`min_y` was never
  set; NaN has no counterpart in `ℝ`, so this state is flagged as an
  error instead.  No theorem below depends on this branch. -/
inductive PyErr : Type where
  | zeroDiv
  | valueErr
  | typeErr
  | keyErr
  | nameErr
  | nanVal
deriving DecidableEq, Repr

/-- Result of running a piece of the Python program: a value, a raised
exception, or (for the driver loop only) divergence. -/
inductive Res (α : Type) : Type where
  | ok (a : α)
  | exn (e : PyErr)
  | hang
deriving DecidableEq, Repr

namespace Res

def bind {α β : Type} : Res α → (α → Res β) → Res β
  | .ok a, f => f a
  | .exn e, _ => .exn e
  | .hang, _ => .hang

instance : Monad Res where
  pure := .ok
  bind := bind

def map {α β : Type} (f : α → β) : Res α → Res β
  | .ok a => .ok (f a)
  | .exn e => .exn e
  | .hang => .hang

/-- Did this run abort with Python's `TypeError` (the unset-baseline
error of `target_z`)? -/
def isTypeErr {α : Type} : Res α → Bool
  | .exn .typeErr => true
  | _ => false

end Res

/-! ## Python string primitives

`str.rstrip` / `str.strip` / `str.split()` restricted to ASCII whitespace
(the inputs of interest contain no exotic Unicode whitespace). -/

/-- The ASCII whitespace characters Python's `strip`/`split` treat as
separators. -/
def pyIsSpace (c : Char) : Bool :=
  c == ' ' || c == '\t' || c == '\n' || c == '\x0b' || c == '\x0c' || c == '\r'

/-- `line.rstrip()` on a character list. -/
def pyRstripL (l : List Char) : List Char :=
  ((l.reverse.dropWhile pyIsSpace)).reverse

/-- `line.strip()` on a character list. -/
def pyStripL (l : List Char) : List Char :=
  ((l.dropWhile pyIsSpace).reverse.dropWhile pyIsSpace).reverse

/-- `s.strip()` on a string. -/
def pyStripS (s : String) : String :=
  String.mk (pyStripL s.toList)

/-- `s.startswith(pre)`. -/
def pyStartsWith (s pre : String) : Bool :=
  pre.toList.isPrefixOf s.toList

/-- The grouping pass of `str.split()`: cut a character list at whitespace,
keeping (possibly empty) groups. -/
def splitWSCore (l : List Char) : List (List Char) :=
  l.foldr
    (fun c acc =>
      if pyIsSpace c then [] :: acc
      else
        match acc with
        | [] => [[c]]
        | t :: ts => (c :: t) :: ts)
    []

/-- `s.split()` — split on runs of whitespace, dropping empty tokens. -/
def splitWS (l : List Char) : List (List Char) :=
  (splitWSCore l).filter (fun t => !t.isEmpty)

/-! ## `float(s)` — parsing decimal text to an exact rational

Python's `float` accepts an optionally signed decimal with optional
fraction and exponent, surrounded by whitespace.  (`nan`/`inf` literals
and `_` digit separators are not modelled; no input of interest uses
them.)  The value is kept exact in `ℚ`. -/

def isDigitC (c : Char) : Bool := '0' ≤ c && c ≤ '9'

def digitsVal (l : List Char) : ℕ :=
  l.foldl (fun a c => a * 10 + (c.toNat - '0'.toNat)) 0

/-- Unsigned decimal mantissa: `digits`, `digits.digits`, `.digits` or
`digits.` — at least one digit overall. -/
def parseUDec (l : List Char) : Option ℚ :=
  let ip := l.takeWhile isDigitC
  match l.dropWhile isDigitC with
  | [] => if ip.isEmpty then none else some (digitsVal ip : ℚ)
  | '.' :: r2 =>
    let fp := r2.takeWhile isDigitC
    if (r2.dropWhile isDigitC).isEmpty then
      if ip.isEmpty && fp.isEmpty then none
      else some ((digitsVal ip : ℚ) + (digitsVal fp : ℚ) / (10 : ℚ) ^ fp.length)
    else none
  | _ => none

/-- Signed decimal exponent after `e`/`E`. -/
def parseExp (l : List Char) : Option ℤ :=
  let p : Bool × List Char :=
    match l with
    | '+' :: r => (false, r)
    | '-' :: r => (true, r)
    | r => (false, r)
  if p.2.isEmpty || !(p.2.all isDigitC) then none
  else some ((if p.1 then -1 else 1) * (digitsVal p.2 : ℤ))

/-- `float(s)` as an exact rational; `none` means Python raises
`ValueError`. -/
def pyFloat (s : String) : Option ℚ :=
  let l := pyStripL s.toList
  let p : Bool × List Char :=
    match l with
    | '+' :: r => (false, r)
    | '-' :: r => (true, r)
    | r => (false, r)
  let mant := p.2.takeWhile (fun c => !(c == 'e' || c == 'E'))
  match parseUDec mant with
  | none => none
  | some m =>
    match p.2.dropWhile (fun c => !(c == 'e' || c == 'E')) with
    | [] => some (if p.1 then -m else m)
    | _ :: r =>
      match parseExp r with
      | none => none
      | some e => some (if p.1 then -(m * (10 : ℚ) ^ e) else m * (10 : ℚ) ^ e)

/-! ## The command model (`class GCode`) -/

/-- The value of one argument: the raw text produced by `GCode.parse`, or
a float written by the translator (`g.args['Z'] = ...`). -/
inductive ArgVal : Type where
  | str (s : String)
  | num (x : ℝ)

/-- One parsed G-code line: mnemonic, ordered argument mapping, comment.
The argument list models a Python `dict` (insertion-ordered, single
occurrence of each key). -/
structure GCode where
  command : String
  args : List (Char × ArgVal)
  comment : String

/-- Insert into a Python `dict` modelled as an ordered association list:
an existing key keeps its position and gets the new value, a new key is
appended at the end. -/
def setArgList : List (Char × ArgVal) → Char → ArgVal → List (Char × ArgVal)
  | [], k, v => [(k, v)]
  | (k', v') :: rest, k, v =>
    if k' = k then (k', v) :: rest else (k', v') :: setArgList rest k v

/-- `GCode.parse(line)` (lines 24–53 of `curve.py`). -/
def GCode.parse (line : String) : GCode :=
  let l := pyRstripL line.toList
  let cmdPart : List Char :=
    if l.contains ';' then l.takeWhile (fun c => !(c == ';')) else l
  let comment : List Char :=
    if l.contains ';' then l.dropWhile (fun c => !(c == ';')) else []
  let toks := splitWS (pyStripL cmdPart)
  let args : List (Char × ArgVal) :=
    if toks.length > 1 then
      (toks.drop 1).foldl
        (fun a t => setArgList a (t.headD ' ') (.str (String.mk (t.drop 1)))) []
    else []
  let cmd : String :=
    match toks with
    | [] => ""
    | t :: _ => String.mk t
  ⟨cmd, args, String.mk comment⟩

/-- `'K' in g.args`. -/
def GCode.hasArg (g : GCode) (k : Char) : Bool :=
  (List.lookup k g.args).isSome

/-- `g.args[k]` as an option. -/
def GCode.getArg (g : GCode) (k : Char) : Option ArgVal :=
  List.lookup k g.args

/-- `g.args[k] = v` (dict item assignment). -/
def GCode.setArg (g : GCode) (k : Char) (v : ArgVal) : GCode :=
  { g with args := setArgList g.args k v }

/-- `g.args.update(point)` for a point with real-valued axes
(dict update: iterate over the point's items, assigning each). -/
def GCode.updateArgsR (g : GCode) (ps : List (Char × ℝ)) : GCode :=
  { g with args := ps.foldl (fun a kv => setArgList a kv.1 (.num kv.2)) g.args }

/-- `float(v)` on an argument value: parse a raw string, pass a float
through. -/
noncomputable def floatValR (v : ArgVal) : Res ℝ :=
  match v with
  | .str s =>
    match pyFloat s with
    | some q => .ok (q : ℝ)
    | none => .exn .valueErr
  | .num x => .ok x

/-! ### `GCode.__str__` (lines 63–89)

Fixed-point rendering of a real.  Python formats the nearest binary
double with round-half-even; on the exact real value this is rounding to
the nearest multiple of `10^-prec` (`round` breaks the measure-zero ties
half-up where Python breaks them half-even; no theorem depends on a
tie). -/

/-- Render a natural number left-padded with zeros to `w` digits. -/
def padZeros (w : ℕ) (s : String) : String :=
  String.mk (List.replicate (w - s.length) '0') ++ s

/-- `f'{x:.{prec}f}'` on the exact real value. -/
noncomputable def fmtFixed (prec : ℕ) (x : ℝ) : String :=
  let n : ℤ := round (x * (10 : ℝ) ^ prec)
  let sign := if n < 0 then "-" else ""
  let m := n.natAbs
  if prec = 0 then sign ++ toString m
  else sign ++ toString (m / 10 ^ prec) ++ "." ++ padZeros prec (toString (m % 10 ^ prec))

/-- `repr` of a float for a non-X/Y/Z/E key (Python would render the
float's shortest round-tripping decimal; unreachable in the pipeline,
which only ever assigns floats to X/Y/Z/E keys). -/
noncomputable def pyFloatRepr (x : ℝ) : String := fmtFixed 17 x

/-- Format one argument value (lines 75–81): `E` → 5 decimals,
`X`/`Y`/`Z` → 3 decimals, anything else unformatted. -/
noncomputable def formatVal (k : Char) (v : ArgVal) : Res String :=
  if k = 'E' then do
    let x ← floatValR v
    pure (fmtFixed 5 x)
  else if k = 'X' ∨ k = 'Y' ∨ k = 'Z' then do
    let x ← floatValR v
    pure (fmtFixed 3 x)
  else
    match v with
    | .str s => .ok s
    | .num x => .ok (pyFloatRepr x)

/-- `str(g)` — serialize a command back to text (lines 63–89). -/
noncomputable def GCode.str (g : GCode) : Res String := do
  let s0 := if g.command = "" then "" else g.command
  let s1 ← g.args.foldlM
    (fun s kv => do
      let v ← formatVal kv.1 kv.2
      pure (s ++ " " ++ String.mk [kv.1] ++ v))
    s0
  if g.comment = "" then pure s1
  else
    let s2 := if pyStripS s1 = "" then s1 else pyStripS s1 ++ " "
    let s3 := if pyStartsWith g.comment ";" then s2 else s2 ++ ";"
    pure (s3 ++ g.comment)

/-! ## The interpolator (lines 8–20)

`interpolate(n, **p)` yields, for `i = 1..n`, the point whose `k`-axis
value is `p[k][0] + i * s[k]` with `s[k] = (p[k][1] - p[k][0]) / n`
(the per-axis step dict is inlined at its unique lookup). -/

noncomputable def interpolate (n : ℕ) (p : List (Char × ℝ × ℝ)) :
    List (List (Char × ℝ)) :=
  (List.range n).map fun j =>
    p.map fun kab => (kab.1, kab.2.1 + ((j + 1 : ℕ) : ℝ) * ((kab.2.2 - kab.2.1) / (n : ℝ)))

/-! ## The bounds scanner (`class GCodeScanner`, lines 104–185) -/

/-- The scanner's states (its handler methods). -/
inductive ScanState : Type where
  | Intro
  | SkipSkirt
  | RegionScan
  | SkipRelativePosition
  | EndStage
deriving DecidableEq, Repr

/-- The scanner's mutable attributes.  `min_x`/`min_y` start at `9e999`,
which Python evaluates to float `inf`, modelled as `none`. -/
structure GCodeScanner where
  state : ScanState
  max_x : ℚ
  min_x : Option ℚ
  max_y : ℚ
  min_y : Option ℚ
  max_z : ℚ
  min_z : ℚ
  target_depression : ℚ
deriving DecidableEq, Repr

/-- `GCodeScanner(td)` — the constructor (lines 105–114). -/
def scanInit (td : ℚ) : GCodeScanner :=
  { state := .Intro, max_x := 0, min_x := none, max_y := 0, min_y := none,
    max_z := 0, min_z := 0, target_depression := td }

/-- Python `min(m, x)` with `m` possibly `inf`. -/
def pymin : Option ℚ → ℚ → Option ℚ
  | none, x => some x
  | some q, x => some (min q x)

/-- `float(v)` in the scanner pass.  The scanner only ever sees freshly
parsed commands, whose argument values are raw strings; a float-valued
argument cannot occur in pass 1, so that case is mapped to the same
error as an unparseable string. -/
def floatValQ (v : ArgVal) : Res ℚ :=
  match v with
  | .str s =>
    match pyFloat s with
    | some q => .ok q
    | none => .exn .valueErr
  | .num _ => .exn .valueErr

/-- One call of the scanner's current state handler on one parsed
command: `(some s, m')` requests a transition to `s` (the driver will
re-evaluate the same command there), `(none, m')` is Python `return
None`. -/
def scanStep (m : GCodeScanner) (g : GCode) : Res (Option ScanState × GCodeScanner) :=
  match m.state with
  | .Intro =>
    -- lines 152–154
    .ok (if g.comment = ";TYPE:SKIRT" then (some .SkipSkirt, m) else (none, m))
  | .SkipSkirt =>
    -- lines 156–158
    .ok (if pyStartsWith g.comment ";TYPE" then (some .RegionScan, m) else (none, m))
  | .RegionScan =>
    -- lines 160–178
    if g.command = "M107" then .ok (some .EndStage, m)
    else if g.command = "G91" then .ok (some .SkipRelativePosition, m)
    else if g.command ≠ "G0" ∧ g.command ≠ "G1" then .ok (none, m)
    else do
      let m1 ←
        match g.getArg 'X' with
        | some v => do
          let x ← floatValQ v
          pure { m with max_x := max m.max_x x, min_x := pymin m.min_x x }
        | none => pure m
      let m2 ←
        match g.getArg 'Y' with
        | some v => do
          let y ← floatValQ v
          pure { m1 with max_y := max m1.max_y y, min_y := pymin m1.min_y y }
        | none => pure m1
      let m3 ←
        match g.getArg 'Z' with
        | some v => do
          let z ← floatValQ v
          pure { m2 with max_z := max m2.max_z z }
        | none => pure m2
      pure (none, m3)
  | .SkipRelativePosition =>
    -- lines 180–182
    .ok (if g.command = "G90" then (some .RegionScan, m) else (none, m))
  | .EndStage =>
    -- lines 184–185
    .ok (none, m)

/-- The driver loop of `GCodeProcessor.handle_line` (lines 96–101) for
the scanner: call the current handler; while it returns a next state,
move there and re-evaluate the same command.  `fuel` bounds the number
of handler calls; `.hang` means the bound was hit.  During a replay
chain the attributes are only mutated by the final, non-transitioning
call, so the chain's course depends on `(state, g)` alone: a chain that
revisits a state cycles forever, hence any terminating chain makes at
most 5 calls (one per state) and a fuel of 5 is exact. -/
def scanReplay : ℕ → GCodeScanner → GCode → Res GCodeScanner
  | 0, _, _ => .hang
  | fuel + 1, m, g =>
    match scanStep m g with
    | .ok (none, m') => .ok m'
    | .ok (some s, m') => scanReplay fuel { m' with state := s } g
    | .exn e => .exn e
    | .hang => .hang

/-- `scanner.handle_line(line)`. -/
def scanHandleLine (m : GCodeScanner) (line : String) : Res GCodeScanner :=
  scanReplay 5 m (GCode.parse line)

/-- Pass 1: feed each line to the scanner in order (lines 291–292). -/
def scanRun : GCodeScanner → List String → Res GCodeScanner
  | m, [] => .ok m
  | m, line :: rest =>
    match scanHandleLine m line with
    | .ok m' => scanRun m' rest
    | .exn e => .exn e
    | .hang => .hang

/-! ## The geometry model functions (lines 116–150)

These are methods of the scanner object, consumed by the translator. -/

/-- `xmid(x)` — map X into roughly (-1, 1) (lines 116–133).  With
`min_x` never set Python computes with `inf` and silently produces NaN
(`nanVal`, see `PyErr`); with `min_x = max_x` the division raises
`ZeroDivisionError`. -/
noncomputable def GCodeScanner.xmid (m : GCodeScanner) (x : ℝ) : Res ℝ :=
  match m.min_x with
  | none => .exn .nanVal
  | some mn =>
    let mid : ℚ := mn + (m.max_x - mn) / 2
    if m.max_x = mid then .exn .zeroDiv
    else .ok ((x - (mid : ℝ)) / ((m.max_x : ℝ) - (mid : ℝ)))

/-- `ymid(y)` (lines 135–137). -/
noncomputable def GCodeScanner.ymid (m : GCodeScanner) (y : ℝ) : Res ℝ :=
  match m.min_y with
  | none => .exn .nanVal
  | some mn =>
    let mid : ℚ := mn + (m.max_y - mn) / 2
    if m.max_y = mid then .exn .zeroDiv
    else .ok ((y - (mid : ℝ)) / ((m.max_y : ℝ) - (mid : ℝ)))

/-- `layer_depression(z)` (lines 139–150): division by zero when no Z
was ever scanned (`max_z = 0`). -/
noncomputable def GCodeScanner.layer_depression (m : GCodeScanner) (z : ℝ) : Res ℝ :=
  if m.max_z = 0 then .exn .zeroDiv
  else .ok ((m.target_depression : ℝ) * (z / (m.max_z : ℝ)) * 4)

/-! ## The curve translator (`class GCodeTranslator`, lines 188–277) -/

/-- The translator's states. -/
inductive TransState : Type where
  | Intro
  | LayerHeader
  | LayerCode
  | EndStage
deriving DecidableEq, Repr

/-- The translator's mutable attributes (lines 189–199). -/
structure GCodeTranslator where
  model : GCodeScanner
  state : TransState
  output : List GCode
  first_z : Option ℝ
  layer_z : ℝ
  last_x : ℝ
  last_y : ℝ
  last_z : ℝ
  last_e : ℝ

/-- `GCodeTranslator(model)` — the constructor. -/
def transInit (m : GCodeScanner) : GCodeTranslator :=
  { model := m, state := .Intro, output := [], first_z := none,
    layer_z := 0, last_x := 0, last_y := 0, last_z := 0, last_e := 0 }

/-- `math.sqrt(x)`: `ValueError` on a negative argument, never a clamp. -/
noncomputable def pysqrt (x : ℝ) : Res ℝ :=
  if x < 0 then .exn .valueErr else .ok (Real.sqrt x)

/-- `target_z(x, y, z)` — the height transform (lines 201–211).
`z - self.first_z` raises `TypeError` when `first_z` is still `None`;
`xmid` is computed and discarded exactly as in the source (it can still
raise). -/
noncomputable def GCodeTranslator.target_z (t : GCodeTranslator) (x y z : ℝ) : Res ℝ := do
  let fz ←
    match t.first_z with
    | none => (.exn .typeErr : Res ℝ)
    | some v => pure v
  let d ← t.model.layer_depression (z - fz)
  let _ ← t.model.xmid x
  let y' ← t.model.ymid y
  let s ← pysqrt (2 * d - d ^ 2)
  let f ← pysqrt (1 - (y' * s) ^ 2)
  pure (z + f - 1)

/-- Lines 236–240: a `G0` carrying `Z` records the layer height and, the
first time, the baseline `first_z`. -/
noncomputable def recordLayerZ (t : GCodeTranslator) (g : GCode) : Res GCodeTranslator :=
  if g.command = "G0" ∧ g.hasArg 'Z' = true then do
    let zh ←
      match g.getArg 'Z' with
      | some v => floatValR v
      | none => (.exn .keyErr : Res ℝ) -- unreachable: guarded by `hasArg`
    pure { t with layer_z := zh,
                  first_z := match t.first_z with
                             | none => some zh
                             | some w => some w }
  else pure t

/-- Line 242: `target_x = float(g.args['X']) if 'X' in g.args else last_x`. -/
noncomputable def targetXR (t : GCodeTranslator) (g : GCode) : Res ℝ :=
  match g.getArg 'X' with
  | some v => floatValR v
  | none => .ok t.last_x

/-- Line 243: the Y analogue. -/
noncomputable def targetYR (t : GCodeTranslator) (g : GCode) : Res ℝ :=
  match g.getArg 'Y' with
  | some v => floatValR v
  | none => .ok t.last_y

/-- Look a coordinate up in an interpolation point (`point['X']`;
`KeyError` is unreachable because `interpolate` preserves the axes of
its range dict). -/
def pointVal (p : List (Char × ℝ)) (k : Char) : Res ℝ :=
  match List.lookup k p with
  | some x => .ok x
  | none => .exn .keyErr

/-- Lines 265–269: for each interpolated point, extend it with the
transformed Z, clone the command, overwrite the point's axes, append.
Returns the final translator and the last clone (Python's loop variable
`new_g` after the loop; `nameErr` models the `NameError` of an empty
loop, unreachable since `interpolate 4` yields 4 points). -/
noncomputable def layerLoop :
    GCodeTranslator → GCode → List (List (Char × ℝ)) → Res (GCodeTranslator × GCode)
  | _, _, [] => .exn .nameErr
  | t, g, p :: ps => do
    let px ← pointVal p 'X'
    let py ← pointVal p 'Y'
    let zt ← t.target_z px py t.layer_z
    let ng := g.updateArgsR (p ++ [('Z', zt)])
    let t' := { t with output := t.output ++ [ng] }
    match ps with
    | [] => pure (t', ng)
    | _ => layerLoop t' g ps

/-- Lines 273–274: `if 'E' in new_g.args: last_e = float(new_g.args['E'])`. -/
noncomputable def updateLastE (t : GCodeTranslator) (ng : GCode) : Res GCodeTranslator :=
  match ng.getArg 'E' with
  | some v => do
    let e ← floatValR v
    pure { t with last_e := e }
  | none => pure t

/-- The `LayerCode` handler (lines 225–274). -/
noncomputable def layerCode (t : GCodeTranslator) (g : GCode) :
    Res (Option TransState × GCodeTranslator) :=
  if pyStartsWith g.comment ";LAYER:" = true then .ok (some .LayerHeader, t)
  else if g.command = "M107" then .ok (some .EndStage, t)
  else if g.command ≠ "G0" ∧ g.command ≠ "G1" then
    .ok (none, { t with output := t.output ++ [g] })
  else do
    let t1 ← recordLayerZ t g
    let tx ← targetXR t1 g
    let ty ← targetYR t1 g
    if g.command = "G0" ∧ g.hasArg 'Z' = true then do
      -- lines 245–250: the layer-height move itself
      let zt ← t1.target_z tx ty t1.layer_z
      pure (none, { t1 with output := t1.output ++ [g.setArg 'Z' (.num zt)],
                            last_x := tx, last_y := ty })
    else do
      let r ←
        if ty = t1.last_y then do
          -- lines 252–255
          let zt ← t1.target_z tx ty t1.layer_z
          let ng := g.setArg 'Z' (.num zt)
          pure ({ t1 with output := t1.output ++ [ng] }, ng)
        else do
          -- lines 257–269
          let ir0 : List (Char × ℝ × ℝ) := [('X', (t1.last_x, tx)), ('Y', (t1.last_y, ty))]
          let ir ←
            match g.getArg 'E' with
            | some v => do
              let te ← floatValR v
              pure (ir0 ++ [('E', (t1.last_e, te))])
            | none => pure ir0
          layerLoop t1 g (interpolate 4 ir)
      -- lines 271–274
      let t3 := { r.1 with last_x := tx, last_y := ty }
      let t4 ← updateLastE t3 r.2
      pure (none, t4)

/-- One call of the translator's current state handler (the four methods
at lines 213–277). -/
noncomputable def transStep (t : GCodeTranslator) (g : GCode) :
    Res (Option TransState × GCodeTranslator) :=
  match t.state with
  | .Intro =>
    -- lines 213–217
    .ok (if pyStartsWith g.comment ";LAYER:" = true then (some .LayerHeader, t)
         else (none, { t with output := t.output ++ [g] }))
  | .LayerHeader =>
    -- lines 219–223
    .ok (if g.command = "G0" ∧ g.hasArg 'Z' = true then (some .LayerCode, t)
         else (none, { t with output := t.output ++ [g] }))
  | .LayerCode => layerCode t g
  | .EndStage =>
    -- lines 276–277
    .ok (none, { t with output := t.output ++ [g] })

/-- The driver loop for the translator (see `scanReplay`; a fuel of 5 is
again exact, the translator having 4 states). -/
noncomputable def transReplay : ℕ → GCodeTranslator → GCode → Res GCodeTranslator
  | 0, _, _ => .hang
  | fuel + 1, t, g =>
    match transStep t g with
    | .ok (none, t') => .ok t'
    | .ok (some s, t') => transReplay fuel { t' with state := s } g
    | .exn e => .exn e
    | .hang => .hang

/-- `translator.handle_line(line)`. -/
noncomputable def transHandleLine (t : GCodeTranslator) (line : String) : Res GCodeTranslator :=
  transReplay 5 t (GCode.parse line)

/-- Pass 2: feed each line to the translator in order (lines 297–298). -/
noncomputable def transRun : GCodeTranslator → List String → Res GCodeTranslator
  | t, [] => .ok t
  | t, line :: rest =>
    match transHandleLine t line with
    | .ok t' => transRun t' rest
    | .exn e => .exn e
    | .hang => .hang

/-- The whole two-pass pipeline `process(lines, depressionAmount)`
(lines 290–301): scan, then translate the same lines against the scanned
model, producing the output command sequence. -/
noncomputable def runPipeline (td : ℚ) (lines : List String) : Res (List GCode) :=
  match scanRun (scanInit td) lines with
  | .ok m =>
    match transRun (transInit m) lines with
    | .ok t => .ok t.output
    | .exn e => .exn e
    | .hang => .hang
  | .exn e => .exn e
  | .hang => .hang

/-! ## Concrete states used by witnesses and counterexamples -/

/-- A populated geometry model with zero depression: bounds 0–10 on X
and Y, `max_z = 10`, `depressionAmount = 0`. -/
def modelTDZero : GCodeScanner :=
  { state := .EndStage, max_x := 10, min_x := some 0, max_y := 10, min_y := some 0,
    max_z := 10, min_z := 0, target_depression := 0 }

/-- A populated geometry model with depression 1 (same bounds). -/
def modelTDOne : GCodeScanner :=
  { state := .EndStage, max_x := 10, min_x := some 0, max_y := 10, min_y := some 0,
    max_z := 10, min_z := 0, target_depression := 1 }

/-- A translator sitting in `LayerCode` over `modelTDZero`, baseline and
layer height `0.2`, cursor at the origin. -/
def transAtLayerCode : GCodeTranslator :=
  { model := modelTDZero, state := .LayerCode, output := [], first_z := some 0.2,
    layer_z := 0.2, last_x := 0, last_y := 0, last_z := 0, last_e := 0 }

/-- A translator sitting in `LayerCode` over `modelTDOne`, baseline 0. -/
def transAtLayerCodeTD1 : GCodeTranslator :=
  { model := modelTDOne, state := .LayerCode, output := [], first_z := some 0,
    layer_z := 0, last_x := 0, last_y := 0, last_z := 0, last_e := 0 }


/-- The invariant of the Translator's state machine: whenever control
sits in `LayerCode`, the baseline `first_z` has been recorded. -/
def TransInv (t : GCodeTranslator) : Prop := t.state = .LayerCode → t.first_z ≠ none

/-- Precondition for feeding one command `g` to the current handler: in
`LayerCode` either the baseline is recorded, or `g` is the layer-height
move (`G0` with `Z`) that is about to record it. -/
def StepPre (t : GCodeTranslator) (g : GCode) : Prop :=
  t.state = .LayerCode → (t.first_z ≠ none ∨ (g.command = "G0" ∧ g.hasArg 'Z' = true))

/-- A translator in `LayerCode` over `modelTDZero` whose baseline is
still unset. -/
def transAtLayerCodeNoFZ : GCodeTranslator :=
  { model := modelTDZero, state := .LayerCode, output := [], first_z := none,
    layer_z := 0, last_x := 0, last_y := 0, last_z := 0, last_e := 0 }

/-! # Lemmas and claim theorems -/

@[simp] theorem Res.ok_bind {α β : Type} (a : α) (f : α → Res β) :
    Res.bind (.ok a) f = f a := rfl

@[simp] theorem Res.exn_bind {α β : Type} (e : PyErr) (f : α → Res β) :
    Res.bind (.exn e) f = .exn e := rfl

@[simp] theorem Res.hang_bind {α β : Type} (f : α → Res β) :
    Res.bind (.hang : Res α) f = .hang := rfl

@[simp] theorem Res.bind_eq_bind {α β : Type} (r : Res α) (f : α → Res β) :
    Bind.bind r f = Res.bind r f := rfl

@[simp] theorem Res.pure_eq_ok {α : Type} (a : α) : (pure a : Res α) = .ok a := rfl

@[simp] theorem Res.map_ok {α β : Type} (f : α → β) (a : α) :
    Res.map f (.ok a) = .ok (f a) := rfl

@[simp] theorem Res.map_exn {α β : Type} (f : α → β) (e : PyErr) :
    Res.map f (.exn e : Res α) = .exn e := rfl

@[simp] theorem Res.map_hang {α β : Type} (f : α → β) :
    Res.map f (.hang : Res α) = .hang := rfl

/-! ## C1 — the replay loop on a layer-height move that carries a
`;LAYER:` comment -/

/-- **C1** (code_bug evidence).  The claim asserts the replay loop of
`handle_line` always terminates within the number of states, in
particular on a `G0 ... Z...` line whose comment starts with `;LAYER:`
fed to the Translator in `LayerHeader` or `LayerCode`.  On exactly that
line the code loops forever: `LayerCode` bounces the command to
`LayerHeader` (comment check, line 226) and `LayerHeader` bounces it
straight back (G0-with-Z check, line 220), consuming no input.  For
every fuel bound the replay loop is still running. -/
theorem translator_replay_diverges_on_g0z_layer_comment : ∀ n : ℕ,
    transReplay n { transInit (scanInit 0) with state := .LayerCode }
      (GCode.parse "G0 Z0.2 ;LAYER:1") = .hang ∧
    transReplay n { transInit (scanInit 0) with state := .LayerHeader }
      (GCode.parse "G0 Z0.2 ;LAYER:1") = .hang := by
  intro n
  induction n with
  | zero => exact ⟨rfl, rfl⟩
  | succ k ih =>
    refine ⟨?_, ?_⟩
    · have h : transStep { transInit (scanInit 0) with state := .LayerCode }
          (GCode.parse "G0 Z0.2 ;LAYER:1") =
          .ok (some .LayerHeader, { transInit (scanInit 0) with state := .LayerCode }) := rfl
      simp only [transReplay, h]
      exact ih.2
    · have h : transStep { transInit (scanInit 0) with state := .LayerHeader }
          (GCode.parse "G0 Z0.2 ;LAYER:1") =
          .ok (some .LayerCode, { transInit (scanInit 0) with state := .LayerHeader }) := rfl
      simp only [transReplay, h]
      exact ih.1

/-! ## C2 — the spec's three-line end-to-end example -/

/-- **C2** (code_bug evidence).  The claim asserts the two-pass pipeline
on `[";LAYER:0", "G0 Z0.2", "G1 X10 Y0 E1"]` with `depressionAmount = 0`
succeeds and emits `G0 Z0.200` then `G1 X10.000 Y0.000 E1.00000 Z0.200`.
In fact the run aborts with a `ZeroDivisionError`: no `;TYPE:SKIRT`
marker ever moves the Scanner out of `Intro`, so the geometry model
still has `max_z = 0` when the Translator's `G0 Z0.2` reaches
`layer_depression`, whose `z / max_z` divides by zero. -/
theorem pipeline_spec_example_divides_by_zero :
    runPipeline 0 [";LAYER:0", "G0 Z0.2", "G1 X10 Y0 E1"] = .exn .zeroDiv := rfl

/-! ## C3 — skirt motion and the bounding box -/

/-- **C3** (code_bug evidence).  The claim asserts motion between the
`;TYPE:SKIRT` marker and the next `;TYPE` marker never contributes to
the bounding box.  In fact the marker line that *enters* `SkipSkirt`
also *leaves* it in the same replay chain (`SkipSkirt` fires on any
`;TYPE` comment, the skirt's own included), so the scanner is already in
`RegionScan` for the skirt's motion: scanning `";TYPE:SKIRT"` then
`"G1 X50 Y60"` accumulates the skirt move into every extremum. -/
theorem skirt_motion_is_accumulated :
    scanRun (scanInit 1) [";TYPE:SKIRT", "G1 X50 Y60"] =
      .ok { state := .RegionScan, max_x := 50, min_x := some 50, max_y := 60,
            min_y := some 60, max_z := 0, min_z := 0, target_depression := 1 } := by
  have h : scanRun (scanInit 1) [";TYPE:SKIRT", "G1 X50 Y60"] =
      .ok { state := .RegionScan, max_x := max 0 ((50 : ℕ) : ℚ), min_x := some ((50 : ℕ) : ℚ),
            max_y := max 0 ((60 : ℕ) : ℚ), min_y := some ((60 : ℕ) : ℚ), max_z := 0, min_z := 0,
            target_depression := 1 } := rfl
  rw [h]
  norm_num

/-! ## String lemmas for the command model -/

theorem dropWhile_eq_self_of_all {p : Char → Bool} {l : List Char}
    (h : ∀ c ∈ l, p c = false) : l.dropWhile p = l := by
  cases l with
  | nil => rfl
  | cons c cs => simp [List.dropWhile_cons, h c (by simp)]

theorem pyRstripL_eq_self {l : List Char} (h : ∀ c ∈ l, pyIsSpace c = false) :
    pyRstripL l = l := by
  unfold pyRstripL
  rw [dropWhile_eq_self_of_all (fun c hc => h c (List.mem_reverse.mp hc)), List.reverse_reverse]

theorem pyStripL_eq_self {l : List Char} (h : ∀ c ∈ l, pyIsSpace c = false) :
    pyStripL l = l := by
  unfold pyStripL
  rw [dropWhile_eq_self_of_all h,
    dropWhile_eq_self_of_all (fun c hc => h c (List.mem_reverse.mp hc)), List.reverse_reverse]

theorem contains_semi_eq_false {l : List Char} (h : ∀ c ∈ l, c ≠ ';') :
    l.contains ';' = false := by
  induction l with
  | nil => rfl
  | cons c cs ih =>
    have hc : (';' == c) = false := by
      rw [beq_eq_false_iff_ne]
      exact fun he => (h c (by simp)) he.symm
    rw [List.contains_cons, hc, Bool.false_or]
    exact ih fun x hx => h x (by simp [hx])

theorem splitWSCore_all_nonspace : ∀ {l : List Char}, l ≠ [] →
    (∀ c ∈ l, pyIsSpace c = false) → splitWSCore l = [l]
  | [], h, _ => absurd rfl h
  | [c], _, h => by
    simp [splitWSCore, List.foldr, h c (by simp)]
  | c :: c' :: cs, _, h => by
    have ih := @splitWSCore_all_nonspace (c' :: cs) (by simp)
      (fun x hx => h x (by simp [hx]))
    show List.foldr _ _ (c :: c' :: cs) = _
    rw [List.foldr_cons]
    have : List.foldr _ _ (c' :: cs) = [c' :: cs] := ih
    rw [this]
    simp [h c (by simp)]

theorem splitWS_all_nonspace {l : List Char} (hne : l ≠ [])
    (h : ∀ c ∈ l, pyIsSpace c = false) : splitWS l = [l] := by
  unfold splitWS
  rw [splitWSCore_all_nonspace hne h]
  simp [List.isEmpty_eq_true, hne]

/-- Parsing a line with no whitespace and no comment delimiter yields a
bare mnemonic. -/
theorem parse_plain (line : String)
    (h : ∀ c ∈ line.toList, pyIsSpace c = false ∧ c ≠ ';') :
    GCode.parse line = ⟨line, [], ""⟩ := by
  have hsp : ∀ c ∈ line.toList, pyIsSpace c = false := fun c hc => (h c hc).1
  have hsemi : line.toList.contains ';' = false :=
    contains_semi_eq_false (fun c hc => (h c hc).2)
  simp only [GCode.parse, pyRstripL_eq_self hsp, hsemi, Bool.false_eq_true, if_false,
    pyStripL_eq_self hsp]
  cases hl : line.toList with
  | nil =>
    have hline : line = "" := by
      conv_lhs => rw [show line = String.mk line.toList from rfl, hl]
    simp [splitWS, splitWSCore, hline]
  | cons c cs =>
    rw [@splitWS_all_nonspace (c :: cs) (by simp) (hl ▸ hsp)]
    have hline : line = ⟨c :: cs⟩ := by
      rw [show line = String.mk line.toList from rfl, hl]
    simp [hline]

/-- Serializing a command with no arguments and no comment yields the
bare mnemonic. -/
theorem str_plain (c : String) : GCode.str ⟨c, [], ""⟩ = .ok c := by
  by_cases hc : c = "" <;> simp [GCode.str, hc, List.foldlM]

/-! ## C8 — `format(parse(line))` round-trip -/

/-- **C8 counterexample.**  The claim says `format(parse(line))`
reproduces *every* line with no argument tokens and no comment
delimiter.  `" G20"` has no argument tokens and no `;`, but parsing
strips the leading space and formatting does not restore it. -/
theorem format_parse_not_id_on_leading_space :
    (GCode.str (GCode.parse " G20") = Res.ok " G20") = False := eq_false (by decide)

/-- **C8** (amended).  For every line containing no whitespace character
and no `;` — i.e. no argument tokens, no comment delimiter, and no
leading/trailing whitespace for `strip`/`split` to discard —
`format(parse(line))` reproduces the line exactly. -/
theorem format_parse_roundtrip_plain (line : String)
    (h : ∀ c ∈ line.toList, pyIsSpace c = false ∧ c ≠ ';') :
    GCode.str (GCode.parse line) = .ok line := by
  rw [parse_plain line h]; exact str_plain line

/-- **C8 witness**: the round-trip at the concrete line `"G20"`. -/
theorem format_parse_roundtrip_plain_witness :
    (∀ c ∈ ("G20" : String).toList, pyIsSpace c = false ∧ c ≠ ';') ∧
    GCode.str (GCode.parse "G20") = .ok "G20" :=
  ⟨by decide, format_parse_roundtrip_plain "G20" (by decide)⟩

/-! ## Evaluation lemmas for the geometry model and the height transform -/

theorem layer_depression_eval (m : GCodeScanner) (z : ℝ) (h : m.max_z ≠ 0) :
    m.layer_depression z = .ok ((m.target_depression : ℝ) * (z / (m.max_z : ℝ)) * 4) := by
  unfold GCodeScanner.layer_depression
  rw [if_neg h]

theorem xmid_eval (m : GCodeScanner) (x : ℝ) (mn : ℚ) (hm : m.min_x = some mn)
    (hne : m.max_x ≠ mn) :
    m.xmid x = .ok ((x - ((mn + (m.max_x - mn) / 2 : ℚ) : ℝ)) /
      ((m.max_x : ℝ) - ((mn + (m.max_x - mn) / 2 : ℚ) : ℝ))) := by
  unfold GCodeScanner.xmid
  rw [hm]
  have hguard : ¬ m.max_x = mn + (m.max_x - mn) / 2 := by
    intro hEq
    apply hne
    linarith
  simp only [hguard, if_false]

theorem ymid_eval (m : GCodeScanner) (y : ℝ) (mn : ℚ) (hm : m.min_y = some mn)
    (hne : m.max_y ≠ mn) :
    m.ymid y = .ok ((y - ((mn + (m.max_y - mn) / 2 : ℚ) : ℝ)) /
      ((m.max_y : ℝ) - ((mn + (m.max_y - mn) / 2 : ℚ) : ℝ))) := by
  unfold GCodeScanner.ymid
  rw [hm]
  have hguard : ¬ m.max_y = mn + (m.max_y - mn) / 2 := by
    intro hEq
    apply hne
    linarith
  simp only [hguard, if_false]

theorem pysqrt_of_nonneg {x : ℝ} (h : 0 ≤ x) : pysqrt x = .ok (Real.sqrt x) := by
  unfold pysqrt
  rw [if_neg (not_lt.mpr h)]

theorem pysqrt_of_neg {x : ℝ} (h : x < 0) : pysqrt x = .exn .valueErr := by
  unfold pysqrt
  rw [if_pos h]

/-- With zero configured depression the height transform is the
identity, as long as the model is populated enough for every
intermediate expression to be defined. -/
theorem target_z_td_zero (t : GCodeTranslator) (x y z fz : ℝ) (mnx mny : ℚ)
    (hfz : t.first_z = some fz)
    (htd : t.model.target_depression = 0)
    (hmz : t.model.max_z ≠ 0)
    (hmx : t.model.min_x = some mnx) (hxne : t.model.max_x ≠ mnx)
    (hmy : t.model.min_y = some mny) (hyne : t.model.max_y ≠ mny) :
    t.target_z x y z = .ok z := by
  unfold GCodeTranslator.target_z
  rw [hfz]
  have hd0 : (t.model.target_depression : ℝ) * ((z - fz) / (t.model.max_z : ℝ)) * 4 = 0 := by
    rw [htd]; push_cast; ring
  simp only [Res.bind_eq_bind, Res.pure_eq_ok, Res.ok_bind,
    layer_depression_eval _ _ hmz, hd0, xmid_eval _ _ _ hmx hxne, ymid_eval _ _ _ hmy hyne]
  rw [show (2 * (0:ℝ) - 0 ^ 2) = 0 by norm_num, pysqrt_of_nonneg le_rfl, Real.sqrt_zero]
  simp only [Res.ok_bind]
  have h1 : (1 : ℝ) - ((y - ((mny + (t.model.max_y - mny) / 2 : ℚ) : ℝ)) /
      ((t.model.max_y : ℝ) - ((mny + (t.model.max_y - mny) / 2 : ℚ) : ℝ)) * 0) ^ 2 = 1 := by
    ring
  rw [h1, pysqrt_of_nonneg (by norm_num), Real.sqrt_one]
  simp only [Res.ok_bind]
  congr 1
  ring

/-! ## C4 — zero depression is the identity on Z -/

/-- **C4.**  When `depressionAmount = 0` the height transform is the
identity on Z: for every `x`, `y`, `z`, with the geometry model
populated so the formula is defined (`max_z ≠ 0` for
`layer_depression`, finite `min_x ≠ max_x` and `min_y ≠ max_y` for
`xmid`/`ymid`, and a recorded baseline `first_z`),
`target_z x y z = z` exactly. -/
theorem depression_zero_is_identity (t : GCodeTranslator) (x y z fz : ℝ) (mnx mny : ℚ)
    (hfz : t.first_z = some fz)
    (htd : t.model.target_depression = 0)
    (hmz : t.model.max_z ≠ 0)
    (hmx : t.model.min_x = some mnx) (hxne : t.model.max_x ≠ mnx)
    (hmy : t.model.min_y = some mny) (hyne : t.model.max_y ≠ mny) :
    t.target_z x y z = .ok z :=
  target_z_td_zero t x y z fz mnx mny hfz htd hmz hmx hxne hmy hyne

/-- **C4 witness**: the identity at the populated zero-depression model,
evaluated at `(x, y, z) = (3, 4, 7)`. -/
theorem depression_zero_is_identity_witness :
    (transAtLayerCode.first_z = some 0.2 ∧
     transAtLayerCode.model.target_depression = 0 ∧
     transAtLayerCode.model.max_z ≠ 0 ∧
     transAtLayerCode.model.min_x = some 0 ∧ transAtLayerCode.model.max_x ≠ 0 ∧
     transAtLayerCode.model.min_y = some 0 ∧ transAtLayerCode.model.max_y ≠ 0) ∧
    transAtLayerCode.target_z 3 4 7 = .ok 7 :=
  ⟨⟨rfl, rfl, by norm_num [transAtLayerCode, modelTDZero], rfl,
    by norm_num [transAtLayerCode, modelTDZero], rfl,
    by norm_num [transAtLayerCode, modelTDZero]⟩,
   depression_zero_is_identity transAtLayerCode 3 4 7 0.2 0 0 rfl rfl
     (by norm_num [transAtLayerCode, modelTDZero]) rfl
     (by norm_num [transAtLayerCode, modelTDZero]) rfl
     (by norm_num [transAtLayerCode, modelTDZero])⟩

/-! ## C9 — square-root domain violation is a fatal error -/

/-- **C9.**  Whenever `|ymid(y) * sqrt(2d - d²)| > 1` (with `d` the
computed layer depression and the model populated so `d`, `xmid` and
`ymid` are defined), the height transform raises the fatal `ValueError`
of `math.sqrt` — it never clamps: either `2d - d²` is already negative
and the first square root raises, or the second one's argument
`1 - (ym·s)²` is negative and it raises. -/
theorem target_z_sqrt_domain_error (t : GCodeTranslator) (x y z fz d ym xm : ℝ)
    (hfz : t.first_z = some fz)
    (hd : t.model.layer_depression (z - fz) = .ok d)
    (hxm : t.model.xmid x = .ok xm)
    (hym : t.model.ymid y = .ok ym)
    (hgt : 1 < |ym * Real.sqrt (2 * d - d ^ 2)|) :
    t.target_z x y z = .exn .valueErr := by
  unfold GCodeTranslator.target_z
  rw [hfz]
  simp only [Res.bind_eq_bind, Res.pure_eq_ok, Res.ok_bind, hd, hxm, hym]
  by_cases hs : 2 * d - d ^ 2 < 0
  · rw [pysqrt_of_neg hs]
    simp
  · rw [pysqrt_of_nonneg (not_lt.mp hs)]
    simp only [Res.ok_bind]
    have hlt : 1 - (ym * Real.sqrt (2 * d - d ^ 2)) ^ 2 < 0 := by
      have h2 : 1 < (ym * Real.sqrt (2 * d - d ^ 2)) ^ 2 := by
        nlinarith [sq_abs (ym * Real.sqrt (2 * d - d ^ 2)),
          abs_nonneg (ym * Real.sqrt (2 * d - d ^ 2)), hgt]
      linarith
    rw [pysqrt_of_neg hlt]
    simp

/-- **C9 witness**: with depression 1, bounds 0–10 and baseline 0, the
point `(5, 20, 2.5)` has `d = 1`, `ym = 3`, `|3·√1| = 3 > 1`, and
`target_z` raises the `ValueError`. -/
theorem target_z_sqrt_domain_error_witness :
    (transAtLayerCodeTD1.first_z = some 0 ∧
     transAtLayerCodeTD1.model.layer_depression (2.5 - 0) = .ok 1 ∧
     transAtLayerCodeTD1.model.xmid 5 = .ok 0 ∧
     transAtLayerCodeTD1.model.ymid 20 = .ok 3 ∧
     1 < |(3 : ℝ) * Real.sqrt (2 * 1 - 1 ^ 2)|) ∧
    transAtLayerCodeTD1.target_z 5 20 2.5 = .exn .valueErr := by
  have hd : transAtLayerCodeTD1.model.layer_depression (2.5 - 0) = .ok 1 := by
    norm_num [GCodeScanner.layer_depression, transAtLayerCodeTD1, modelTDOne]
  have hxm : transAtLayerCodeTD1.model.xmid 5 = .ok 0 := by
    norm_num [GCodeScanner.xmid, transAtLayerCodeTD1, modelTDOne]
  have hym : transAtLayerCodeTD1.model.ymid 20 = .ok 3 := by
    norm_num [GCodeScanner.ymid, transAtLayerCodeTD1, modelTDOne]
  have hgt : 1 < |(3 : ℝ) * Real.sqrt (2 * 1 - 1 ^ 2)| := by
    rw [show (2 * (1:ℝ) - 1 ^ 2) = 1 by norm_num, Real.sqrt_one]
    norm_num
  exact ⟨⟨rfl, hd, hxm, hym, hgt⟩,
    target_z_sqrt_domain_error transAtLayerCodeTD1 5 20 2.5 0 1 3 0 rfl hd hxm hym hgt⟩

/-! ## C7 — the interpolator -/

/-- **C7.**  For `n ≥ 1` and any axis ranges, `interpolate n p` yields
exactly `n` points; 0-indexed point `i` (the claim's 1-indexed point
`i + 1`) carries, on each axis, `start + (i+1)·(end−start)/n`; the last
point equals `end` exactly on every axis; and the first point is
`start + (end−start)/n` — the start value itself is never emitted. -/
theorem interpolate_yields_n_points (n : ℕ) (hn : 1 ≤ n) (p : List (Char × ℝ × ℝ)) :
    (interpolate n p).length = n ∧
    (∀ i < n, (interpolate n p)[i]? =
      some (p.map fun kab =>
        (kab.1, kab.2.1 + ((i + 1 : ℕ) : ℝ) * ((kab.2.2 - kab.2.1) / (n : ℝ))))) ∧
    (interpolate n p)[n - 1]? = some (p.map fun kab => (kab.1, kab.2.2)) ∧
    (interpolate n p)[0]? =
      some (p.map fun kab => (kab.1, kab.2.1 + (kab.2.2 - kab.2.1) / (n : ℝ))) := by
  have hn0 : (n : ℝ) ≠ 0 := Nat.cast_ne_zero.mpr (by omega)
  have hgen : ∀ i < n, (interpolate n p)[i]? =
      some (p.map fun kab =>
        (kab.1, kab.2.1 + ((i + 1 : ℕ) : ℝ) * ((kab.2.2 - kab.2.1) / (n : ℝ)))) := by
    intro i hi
    simp [interpolate, List.getElem?_map, List.getElem?_range, hi]
  refine ⟨by simp [interpolate], hgen, ?_, ?_⟩
  · rw [hgen (n - 1) (by omega)]
    have hfun : (fun kab : Char × ℝ × ℝ =>
        (kab.1, kab.2.1 + ((n - 1 + 1 : ℕ) : ℝ) * ((kab.2.2 - kab.2.1) / (n : ℝ)))) =
        fun kab : Char × ℝ × ℝ => (kab.1, kab.2.2) := by
      funext kab
      have hsub : n - 1 + 1 = n := by omega
      rw [hsub]
      field_simp
    rw [hfun]
  · rw [hgen 0 (by omega)]
    norm_num

/-- **C7 witness**: the docstring's example, `interpolate(2, x=(1,3),
y=(4,8))`. -/
theorem interpolate_yields_n_points_witness :
    1 ≤ 2 ∧
    ((interpolate 2 [('x', ((1 : ℝ), (3 : ℝ))), ('y', (4, 8))]).length = 2 ∧
     (∀ i < 2, (interpolate 2 [('x', ((1 : ℝ), (3 : ℝ))), ('y', (4, 8))])[i]? =
       some ([('x', ((1 : ℝ), (3 : ℝ))), ('y', (4, 8))].map fun kab =>
         (kab.1, kab.2.1 + ((i + 1 : ℕ) : ℝ) * ((kab.2.2 - kab.2.1) / ((2 : ℕ) : ℝ))))) ∧
     (interpolate 2 [('x', ((1 : ℝ), (3 : ℝ))), ('y', (4, 8))])[2 - 1]? =
       some ([('x', ((1 : ℝ), (3 : ℝ))), ('y', (4, 8))].map fun kab => (kab.1, kab.2.2)) ∧
     (interpolate 2 [('x', ((1 : ℝ), (3 : ℝ))), ('y', (4, 8))])[0]? =
       some ([('x', ((1 : ℝ), (3 : ℝ))), ('y', (4, 8))].map fun kab =>
         (kab.1, kab.2.1 + (kab.2.2 - kab.2.1) / ((2 : ℕ) : ℝ)))) :=
  ⟨by norm_num, interpolate_yields_n_points 2 (by norm_num) [('x', (1, 3)), ('y', (4, 8))]⟩

/-! ## Infrastructure for C6 and C10 — baseline recording and the unset-baseline error -/

theorem Res.bind_eq_ok {α β : Type} {r : Res α} {f : α → Res β} {b : β} :
    Res.bind r f = .ok b ↔ ∃ a, r = .ok a ∧ f a = .ok b := by
  cases r <;> simp [Res.bind]

theorem Res.bind_eq_exn {α β : Type} {r : Res α} {f : α → Res β} {e : PyErr} :
    Res.bind r f = .exn e ↔ (r = .exn e ∨ ∃ a, r = .ok a ∧ f a = .exn e) := by
  cases r <;> simp [Res.bind]

theorem recordLayerZ_not {t : GCodeTranslator} {g : GCode}
    (h : ¬(g.command = "G0" ∧ g.hasArg 'Z' = true)) : recordLayerZ t g = .ok t := by
  unfold recordLayerZ
  rw [if_neg h]
  rfl

theorem recordLayerZ_g0z {t : GCodeTranslator} {g : GCode} {v : ArgVal} {zv : ℝ}
    (hc : g.command = "G0") (hz : g.getArg 'Z' = some v) (hf : floatValR v = .ok zv) :
    recordLayerZ t g =
      .ok ({ t with
             layer_z := zv,
             first_z := (match t.first_z with | none => some zv | some w => some w) }) := by
  have hz' : List.lookup 'Z' g.args = some v := hz
  have hha : g.hasArg 'Z' = true := by unfold GCode.hasArg; rw [hz']; rfl
  unfold recordLayerZ
  rw [if_pos ⟨hc, hha⟩, hz]
  simp only [hf, Res.bind_eq_bind, Res.ok_bind, Res.pure_eq_ok]

theorem layerCode_yeq_eval (t : GCodeTranslator) (g : GCode) (tx zt : ℝ)
    (hcom : pyStartsWith g.comment ";LAYER:" = false)
    (hm107 : g.command ≠ "M107")
    (hmot : ¬(g.command ≠ "G0" ∧ g.command ≠ "G1"))
    (hnotz : ¬(g.command = "G0" ∧ g.hasArg 'Z' = true))
    (htx : targetXR t g = .ok tx)
    (hty : targetYR t g = .ok t.last_y)
    (htz : t.target_z tx t.last_y t.layer_z = .ok zt)
    (hE : (g.setArg 'Z' (.num zt)).getArg 'E' = none) :
    layerCode t g =
      .ok (none, { t with
                   output := t.output ++ [g.setArg 'Z' (.num zt)],
                   last_x := tx, last_y := t.last_y }) := by
  unfold layerCode
  rw [hcom, if_neg (by simp), if_neg hm107, if_neg hmot]
  simp only [Res.bind_eq_bind, Res.pure_eq_ok, recordLayerZ_not hnotz, Res.ok_bind, htx, hty]
  rw [if_neg hnotz]
  simp only [eq_self_iff_true, if_true, Res.bind_eq_bind, Res.pure_eq_ok, htz, Res.ok_bind]
  unfold updateLastE
  rw [hE]
  rfl

theorem layerLoop_preserves (ps : List (List (Char × ℝ))) :
    ∀ (t : GCodeTranslator) (g ng : GCode) (t₂ : GCodeTranslator),
      layerLoop t g ps = .ok (t₂, ng) →
      t₂.first_z = t.first_z ∧ t₂.state = t.state := by
  induction ps with
  | nil =>
    intro t g ng t₂ h
    simp [layerLoop] at h
  | cons p ps ih =>
    intro t g ng t₂ h
    unfold layerLoop at h
    simp only [Res.bind_eq_bind, Res.pure_eq_ok, Res.bind_eq_ok] at h
    obtain ⟨px, hpx, py, hpy, zt, hzt, h⟩ := h
    cases ps with
    | nil =>
      simp only [Res.pure_eq_ok, Res.ok.injEq, Prod.mk.injEq] at h
      obtain ⟨h1, h2⟩ := h
      rw [← h1]
      exact ⟨rfl, rfl⟩
    | cons q qs =>
      have := ih _ g ng t₂ h
      exact ⟨this.1, this.2⟩

theorem floatValR_ne_typeErr (v : ArgVal) : floatValR v ≠ .exn .typeErr := by
  cases v with
  | str s => cases h : pyFloat s <;> simp [floatValR, h]
  | num x => simp [floatValR]

theorem pointVal_ne_typeErr (p : List (Char × ℝ)) (k : Char) :
    pointVal p k ≠ .exn .typeErr := by
  cases h : List.lookup k p <;> simp [pointVal, h]

theorem layer_depression_ne_typeErr (m : GCodeScanner) (z : ℝ) :
    m.layer_depression z ≠ .exn .typeErr := by
  unfold GCodeScanner.layer_depression
  split <;> simp

theorem xmid_ne_typeErr (m : GCodeScanner) (x : ℝ) : m.xmid x ≠ .exn .typeErr := by
  unfold GCodeScanner.xmid
  cases m.min_x with
  | none => simp
  | some mn =>
    dsimp only
    split <;> simp

theorem ymid_ne_typeErr (m : GCodeScanner) (y : ℝ) : m.ymid y ≠ .exn .typeErr := by
  unfold GCodeScanner.ymid
  cases m.min_y with
  | none => simp
  | some mn =>
    dsimp only
    split <;> simp

theorem pysqrt_ne_typeErr (x : ℝ) : pysqrt x ≠ .exn .typeErr := by
  unfold pysqrt
  split <;> simp

theorem target_z_ne_typeErr {t : GCodeTranslator} (h : t.first_z ≠ none) (x y z : ℝ) :
    t.target_z x y z ≠ .exn .typeErr := by
  obtain ⟨w, hw⟩ := Option.ne_none_iff_exists'.mp h
  unfold GCodeTranslator.target_z
  rw [hw]
  intro hcontra
  simp only [Res.bind_eq_bind, Res.pure_eq_ok, Res.ok_bind, Res.bind_eq_exn] at hcontra
  rcases hcontra with h1 | ⟨d, hd, h2 | ⟨xv, hx, h3 | ⟨yv, hy, h4 | ⟨s, hs, h5 | ⟨f, hf, h6⟩⟩⟩⟩⟩
  · exact layer_depression_ne_typeErr _ _ h1
  · exact xmid_ne_typeErr _ _ h2
  · exact ymid_ne_typeErr _ _ h3
  · exact pysqrt_ne_typeErr _ h4
  · exact pysqrt_ne_typeErr _ h5
  · simp at h6

theorem recordLayerZ_ne_typeErr (t : GCodeTranslator) (g : GCode) :
    recordLayerZ t g ≠ .exn .typeErr := by
  unfold recordLayerZ
  split
  · cases hz : g.getArg 'Z' with
    | none =>
      intro h
      simp only [Res.bind_eq_bind, Res.pure_eq_ok, Res.bind_eq_exn] at h
      rcases h with h | ⟨a, ha, h⟩ <;> simp_all
    | some v =>
      intro h
      simp only [Res.bind_eq_bind, Res.pure_eq_ok, Res.bind_eq_exn] at h
      rcases h with h | ⟨a, ha, h⟩
      · exact floatValR_ne_typeErr v h
      · simp at h
  · simp

theorem recordLayerZ_ok (t : GCodeTranslator) (g : GCode) (t1 : GCodeTranslator)
    (h : recordLayerZ t g = .ok t1) :
    t1.state = t.state ∧ t1.output = t.output ∧
    (t.first_z ≠ none → t1.first_z ≠ none) ∧
    ((g.command = "G0" ∧ g.hasArg 'Z' = true) → t1.first_z ≠ none) ∧
    (∀ w, t.first_z = some w → t1.first_z = some w) := by
  unfold recordLayerZ at h
  split at h
  case isTrue hcond =>
    revert h
    cases hz : g.getArg 'Z' with
    | none =>
      intro h
      simp only [Res.bind_eq_bind, Res.pure_eq_ok, Res.bind_eq_ok] at h
      obtain ⟨a, ha, h⟩ := h
      simp at ha
    | some v =>
      intro h
      simp only [Res.bind_eq_bind, Res.pure_eq_ok, Res.bind_eq_ok] at h
      obtain ⟨zh, hzh, h⟩ := h
      simp only [Res.ok.injEq] at h
      rw [← h]
      refine ⟨rfl, rfl, ?_, ?_, ?_⟩
      · intro _
        cases hfz : t.first_z <;> simp [hfz]
      · intro _
        cases hfz : t.first_z <;> simp [hfz]
      · intro w hw
        simp [hw]
  case isFalse =>
    simp only [Res.pure_eq_ok, Res.ok.injEq] at h
    rw [← h]
    exact ⟨rfl, rfl, fun hh => hh, fun hg0z => absurd hg0z (by assumption), fun w hw => hw⟩

theorem updateLastE_ne_typeErr (t : GCodeTranslator) (ng : GCode) :
    updateLastE t ng ≠ .exn .typeErr := by
  unfold updateLastE
  cases h : ng.getArg 'E' with
  | none => simp
  | some v =>
    intro hc
    simp only [Res.bind_eq_bind, Res.pure_eq_ok, Res.bind_eq_exn] at hc
    rcases hc with hc | ⟨a, ha, hc⟩
    · exact floatValR_ne_typeErr v hc
    · simp at hc

theorem updateLastE_ok (t : GCodeTranslator) (ng : GCode) (t2 : GCodeTranslator)
    (h : updateLastE t ng = .ok t2) :
    t2.state = t.state ∧ t2.first_z = t.first_z ∧ t2.output = t.output ∧
    t2.last_x = t.last_x ∧ t2.last_y = t.last_y ∧ t2.layer_z = t.layer_z := by
  unfold updateLastE at h
  cases hE : ng.getArg 'E' with
  | none =>
    rw [hE] at h
    simp only [Res.pure_eq_ok, Res.ok.injEq] at h
    rw [← h]
    exact ⟨rfl, rfl, rfl, rfl, rfl, rfl⟩
  | some v =>
    rw [hE] at h
    simp only [Res.bind_eq_bind, Res.pure_eq_ok, Res.bind_eq_ok] at h
    obtain ⟨e, he, h⟩ := h
    simp only [Res.ok.injEq] at h
    rw [← h]
    exact ⟨rfl, rfl, rfl, rfl, rfl, rfl⟩

theorem layerLoop_ne_typeErr (ps : List (List (Char × ℝ))) :
    ∀ (t : GCodeTranslator) (g : GCode), t.first_z ≠ none →
      layerLoop t g ps ≠ .exn .typeErr := by
  induction ps with
  | nil => intro t g _ h; simp [layerLoop] at h
  | cons p ps ih =>
    intro t g hfz h
    unfold layerLoop at h
    simp only [Res.bind_eq_bind, Res.pure_eq_ok, Res.bind_eq_exn] at h
    rcases h with h | ⟨px, hpx, h | ⟨py, hpy, h | ⟨zt, hzt, h⟩⟩⟩
    · exact pointVal_ne_typeErr _ _ h
    · exact pointVal_ne_typeErr _ _ h
    · exact target_z_ne_typeErr hfz _ _ _ h
    · cases ps with
      | nil => simp at h
      | cons q qs =>
        exact ih { t with output := t.output ++ [g.updateArgsR (p ++ [('Z', zt)])] } g hfz
          (show layerLoop { t with output := t.output ++ [g.updateArgsR (p ++ [('Z', zt)])] }
              g (q :: qs) = .exn .typeErr from h)


theorem targetXR_ne_typeErr (t : GCodeTranslator) (g : GCode) :
    targetXR t g ≠ .exn .typeErr := by
  unfold targetXR
  cases g.getArg 'X' with
  | none => simp
  | some v => exact floatValR_ne_typeErr v

theorem targetYR_ne_typeErr (t : GCodeTranslator) (g : GCode) :
    targetYR t g ≠ .exn .typeErr := by
  unfold targetYR
  cases g.getArg 'Y' with
  | none => simp
  | some v => exact floatValR_ne_typeErr v

theorem transStep_ok_props (t : GCodeTranslator) (g : GCode) (o : Option TransState)
    (t' : GCodeTranslator) (h : transStep t g = .ok (o, t')) :
    t'.state = t.state ∧
    (∀ w, t.first_z = some w → t'.first_z = some w) ∧
    (StepPre t g → o = none → TransInv t') ∧
    (∀ s, o = some s → StepPre { t' with state := s } g) := by
  cases hst : t.state
  case Intro =>
    have hred : transStep t g = .ok (if pyStartsWith g.comment ";LAYER:" = true
        then (some .LayerHeader, t) else (none, { t with output := t.output ++ [g] })) := by
      unfold transStep
      rw [hst]
    rw [hred] at h
    simp only [Res.ok.injEq] at h
    split at h <;> simp only [Prod.mk.injEq] at h <;> obtain ⟨ho, ht'⟩ := h <;> subst ht'
    · refine ⟨hst, fun w hw => hw, fun _ hno => by rw [← ho] at hno; simp at hno, ?_⟩
      intro s hs
      rw [← ho] at hs
      injection hs with hs2
      subst hs2
      intro habs
      simp at habs
    · refine ⟨hst, fun w hw => hw, fun _ _ habs => ?_, fun s hs => by rw [← ho] at hs; simp at hs⟩
      have : t.state = TransState.LayerCode := habs
      rw [hst] at this
      simp at this
  case LayerHeader =>
    have hred : transStep t g = .ok (if g.command = "G0" ∧ g.hasArg 'Z' = true
        then (some .LayerCode, t) else (none, { t with output := t.output ++ [g] })) := by
      unfold transStep
      rw [hst]
    rw [hred] at h
    simp only [Res.ok.injEq] at h
    split at h
    case isTrue hcond =>
      simp only [Prod.mk.injEq] at h
      obtain ⟨ho, ht'⟩ := h
      subst ht'
      exact ⟨hst, fun w hw => hw, fun _ hno => by rw [← ho] at hno; simp at hno,
        fun s hs => fun _ => Or.inr hcond⟩
    case isFalse =>
      simp only [Prod.mk.injEq] at h
      obtain ⟨ho, ht'⟩ := h
      subst ht'
      refine ⟨hst, fun w hw => hw, fun _ _ habs => ?_, fun s hs => by rw [← ho] at hs; simp at hs⟩
      have : t.state = TransState.LayerCode := habs
      rw [hst] at this
      simp at this
  case EndStage =>
    have hred : transStep t g = .ok (none, { t with output := t.output ++ [g] }) := by
      unfold transStep
      rw [hst]
    rw [hred] at h
    simp only [Res.ok.injEq, Prod.mk.injEq] at h
    obtain ⟨ho, ht'⟩ := h
    subst ht'
    refine ⟨hst, fun w hw => hw, fun _ _ habs => ?_, fun s hs => by rw [← ho] at hs; simp at hs⟩
    have : t.state = TransState.LayerCode := habs
    rw [hst] at this
    simp at this
  case LayerCode =>
    have hred : transStep t g = layerCode t g := by
      unfold transStep
      rw [hst]
    rw [hred] at h
    unfold layerCode at h
    split at h
    · -- a new ;LAYER: comment: back to LayerHeader
      simp only [Res.ok.injEq, Prod.mk.injEq] at h
      obtain ⟨ho, ht'⟩ := h
      subst ht'
      refine ⟨hst, fun w hw => hw, fun _ hno => by rw [← ho] at hno; simp at hno, ?_⟩
      intro s hs
      rw [← ho] at hs
      injection hs with hs2
      subst hs2
      intro habs
      simp at habs
    · split at h
      · -- M107: EndStage
        simp only [Res.ok.injEq, Prod.mk.injEq] at h
        obtain ⟨ho, ht'⟩ := h
        subst ht'
        refine ⟨hst, fun w hw => hw, fun _ hno => by rw [← ho] at hno; simp at hno, ?_⟩
        intro s hs
        rw [← ho] at hs
        injection hs with hs2
        subst hs2
        intro habs
        simp at habs
      · split at h
        case isTrue hnotmot =>
          -- not a motion command: pass through
          simp only [Res.ok.injEq, Prod.mk.injEq] at h
          obtain ⟨ho, ht'⟩ := h
          subst ht'
          refine ⟨hst, fun w hw => hw, fun hpre _ => ?_,
            fun s hs => by rw [← ho] at hs; simp at hs⟩
          intro _
          rcases hpre hst with hl | hr
          · exact hl
          · exact absurd hr.1 hnotmot.1
        case isFalse =>
          -- the motion body
          simp only [Res.bind_eq_bind, Res.pure_eq_ok, Res.bind_eq_ok, Res.ok_bind] at h
          obtain ⟨t1, ht1, tx, htx, ty, hty, h⟩ := h
          obtain ⟨h1state, h1out, h1ne, h1g0z, h1mono⟩ := recordLayerZ_ok t g t1 ht1
          have hfz1 : StepPre t g → t1.first_z ≠ none := by
            intro hpre
            rcases hpre hst with hl | hr
            · exact h1ne hl
            · exact h1g0z hr
          by_cases hg0z : g.command = "G0" ∧ g.hasArg 'Z' = true
          case pos =>
            rw [if_pos hg0z] at h
            simp only [Res.bind_eq_bind, Res.pure_eq_ok, Res.bind_eq_ok] at h
            obtain ⟨zt, hzt, h⟩ := h
            simp only [Res.ok.injEq, Prod.mk.injEq] at h
            obtain ⟨ho, ht'⟩ := h
            subst ht'
            refine ⟨h1state.trans hst, fun w hw => h1mono w hw,
              fun hpre _ => fun _ => h1g0z hg0z,
              fun s hs => by rw [← ho] at hs; simp at hs⟩
          case neg =>
            rw [if_neg hg0z] at h
            by_cases hyeq : ty = t1.last_y
            case pos =>
              rw [if_pos hyeq] at h
              simp only [Res.bind_eq_bind, Res.pure_eq_ok, Res.bind_eq_ok, Res.ok_bind] at h
              obtain ⟨zt, hzt, t4, hu, h⟩ := h
              simp only [Res.ok.injEq, Prod.mk.injEq] at h
              obtain ⟨ho, ht'⟩ := h
              subst ht'
              obtain ⟨hu_state, hu_fz, _⟩ := updateLastE_ok _ _ _ hu
              refine ⟨?_, ?_, ?_, fun s hs => by rw [← ho] at hs; simp at hs⟩
              · rw [hu_state]
                exact h1state.trans hst
              · intro w hw
                rw [hu_fz]
                exact h1mono w hw
              · intro hpre _ _
                rw [hu_fz]
                exact hfz1 hpre
            case neg =>
              rw [if_neg hyeq] at h
              revert h
              cases hE : g.getArg 'E' with
              | none =>
                intro h
                simp only [Res.bind_eq_bind, Res.pure_eq_ok, Res.bind_eq_ok, Res.ok_bind] at h
                obtain ⟨r, hr, t4, hu, h⟩ := h
                simp only [Res.ok.injEq, Prod.mk.injEq] at h
                obtain ⟨ho, ht'⟩ := h
                subst ht'
                obtain ⟨hu_state, hu_fz, _⟩ := updateLastE_ok _ _ _ hu
                have hloop := layerLoop_preserves _ t1 g r.2 r.1
                  (show layerLoop t1 g _ = .ok (r.1, r.2) from hr)
                refine ⟨?_, ?_, ?_, fun s hs => by rw [← ho] at hs; simp at hs⟩
                · rw [hu_state]
                  show r.1.state = _
                  rw [hloop.2]
                  exact h1state.trans hst
                · intro w hw
                  rw [hu_fz]
                  show r.1.first_z = _
                  rw [hloop.1]
                  exact h1mono w hw
                · intro hpre _ _
                  rw [hu_fz]
                  show r.1.first_z ≠ none
                  rw [hloop.1]
                  exact hfz1 hpre
              | some v =>
                intro h
                simp only [Res.bind_eq_bind, Res.pure_eq_ok, Res.bind_eq_ok, Res.ok_bind] at h
                obtain ⟨te, hte, r, hr, t4, hu, h⟩ := h
                simp only [Res.ok.injEq, Prod.mk.injEq] at h
                obtain ⟨ho, ht'⟩ := h
                subst ht'
                obtain ⟨hu_state, hu_fz, _⟩ := updateLastE_ok _ _ _ hu
                have hloop := layerLoop_preserves _ t1 g r.2 r.1
                  (show layerLoop t1 g _ = .ok (r.1, r.2) from hr)
                refine ⟨?_, ?_, ?_, fun s hs => by rw [← ho] at hs; simp at hs⟩
                · rw [hu_state]
                  show r.1.state = _
                  rw [hloop.2]
                  exact h1state.trans hst
                · intro w hw
                  rw [hu_fz]
                  show r.1.first_z = _
                  rw [hloop.1]
                  exact h1mono w hw
                · intro hpre _ _
                  rw [hu_fz]
                  show r.1.first_z ≠ none
                  rw [hloop.1]
                  exact hfz1 hpre

theorem transStep_ne_typeErr (t : GCodeTranslator) (g : GCode) (hpre : StepPre t g) :
    transStep t g ≠ .exn .typeErr := by
  cases hst : t.state
  case Intro =>
    have hred : transStep t g = .ok (if pyStartsWith g.comment ";LAYER:" = true
        then (some .LayerHeader, t) else (none, { t with output := t.output ++ [g] })) := by
      unfold transStep
      rw [hst]
    rw [hred]
    simp
  case LayerHeader =>
    have hred : transStep t g = .ok (if g.command = "G0" ∧ g.hasArg 'Z' = true
        then (some .LayerCode, t) else (none, { t with output := t.output ++ [g] })) := by
      unfold transStep
      rw [hst]
    rw [hred]
    simp
  case EndStage =>
    have hred : transStep t g = .ok (none, { t with output := t.output ++ [g] }) := by
      unfold transStep
      rw [hst]
    rw [hred]
    simp
  case LayerCode =>
    have hred : transStep t g = layerCode t g := by
      unfold transStep
      rw [hst]
    rw [hred]
    unfold layerCode
    split
    · simp
    · split
      · simp
      · split
        · simp
        · intro h
          simp only [Res.bind_eq_bind, Res.pure_eq_ok, Res.bind_eq_exn] at h
          rcases h with h | ⟨t1, ht1, h⟩
          · exact recordLayerZ_ne_typeErr t g h
          · obtain ⟨_, _, h1ne, h1g0z, _⟩ := recordLayerZ_ok t g t1 ht1
            have hfz1 : t1.first_z ≠ none := by
              rcases hpre hst with hl | hr
              · exact h1ne hl
              · exact h1g0z hr
            rcases h with h | ⟨tx, htx, h⟩
            · exact targetXR_ne_typeErr t1 g h
            rcases h with h | ⟨ty, hty, h⟩
            · exact targetYR_ne_typeErr t1 g h
            by_cases hg0z : g.command = "G0" ∧ g.hasArg 'Z' = true
            case pos =>
              rw [if_pos hg0z] at h
              simp only [Res.bind_eq_bind, Res.pure_eq_ok, Res.bind_eq_exn] at h
              rcases h with h | ⟨zt, hzt, h⟩
              · exact target_z_ne_typeErr hfz1 _ _ _ h
              · simp at h
            case neg =>
              rw [if_neg hg0z] at h
              by_cases hyeq : ty = t1.last_y
              case pos =>
                rw [if_pos hyeq] at h
                simp only [Res.bind_eq_bind, Res.pure_eq_ok, Res.bind_eq_exn, Res.ok_bind] at h
                rcases h with h | ⟨zt, hzt, h⟩
                · exact target_z_ne_typeErr hfz1 _ _ _ h
                rcases h with h | ⟨t4, hu, h⟩
                · exact updateLastE_ne_typeErr _ _ h
                · simp at h
              case neg =>
                rw [if_neg hyeq] at h
                revert h
                cases hE : g.getArg 'E' with
                | none =>
                  intro h
                  simp only [Res.bind_eq_bind, Res.pure_eq_ok, Res.bind_eq_exn, Res.ok_bind] at h
                  rcases h with h | ⟨r, hr, h⟩
                  · exact layerLoop_ne_typeErr _ t1 g hfz1 h
                  rcases h with h | ⟨t4, hu, h⟩
                  · exact updateLastE_ne_typeErr _ _ h
                  · simp at h
                | some v =>
                  intro h
                  simp only [Res.bind_eq_bind, Res.pure_eq_ok, Res.bind_eq_exn, Res.ok_bind] at h
                  rcases h with h | ⟨te, hte, h⟩
                  · exact floatValR_ne_typeErr v h
                  rcases h with h | ⟨r, hr, h⟩
                  · exact layerLoop_ne_typeErr _ t1 g hfz1 h
                  rcases h with h | ⟨t4, hu, h⟩
                  · exact updateLastE_ne_typeErr _ _ h
                  · simp at h

theorem transReplay_first_z_mono (fuel : ℕ) :
    ∀ (t : GCodeTranslator) (g : GCode) (t' : GCodeTranslator) (w : ℝ),
      transReplay fuel t g = .ok t' → t.first_z = some w → t'.first_z = some w := by
  induction fuel with
  | zero => intro t g t' w h; simp [transReplay] at h
  | succ n ih =>
    intro t g t' w h hw
    revert h
    rcases hstep : transStep t g with ⟨o, t1⟩ | e | _ <;> intro h
    · obtain ⟨hstate, hmono, _, _⟩ := transStep_ok_props t g o t1 hstep
      cases o with
      | none =>
        rw [show transReplay (n+1) t g = .ok t1 by simp only [transReplay, hstep]] at h
        simp only [Res.ok.injEq] at h
        subst h
        exact hmono w hw
      | some s =>
        rw [show transReplay (n+1) t g = transReplay n { t1 with state := s } g by
          simp only [transReplay, hstep]] at h
        exact ih _ g t' w h (hmono w hw)
    · rw [show transReplay (n+1) t g = .exn e by simp only [transReplay, hstep]] at h
      simp at h
    · rw [show transReplay (n+1) t g = .hang by simp only [transReplay, hstep]] at h
      simp at h

theorem transReplay_props (fuel : ℕ) :
    ∀ (t : GCodeTranslator) (g : GCode), StepPre t g →
      transReplay fuel t g ≠ .exn .typeErr ∧
      (∀ t', transReplay fuel t g = .ok t' → TransInv t') := by
  induction fuel with
  | zero =>
    intro t g _
    exact ⟨by simp [transReplay], by simp [transReplay]⟩
  | succ n ih =>
    intro t g hpre
    rcases hstep : transStep t g with ⟨o, t1⟩ | e | _
    · obtain ⟨hstate, hmono, hinv, hnext⟩ := transStep_ok_props t g o t1 hstep
      cases o with
      | none =>
        have hr : transReplay (n+1) t g = .ok t1 := by simp only [transReplay, hstep]
        refine ⟨by rw [hr]; simp, ?_⟩
        intro t' h
        rw [hr] at h
        simp only [Res.ok.injEq] at h
        subst h
        exact hinv hpre rfl
      | some s =>
        have hr : transReplay (n+1) t g = transReplay n { t1 with state := s } g := by
          simp only [transReplay, hstep]
        have ihh := ih { t1 with state := s } g (hnext s rfl)
        exact ⟨by rw [hr]; exact ihh.1, fun t' h => ihh.2 t' (by rw [← hr]; exact h)⟩
    · have hr : transReplay (n+1) t g = .exn e := by simp only [transReplay, hstep]
      refine ⟨?_, by rw [hr]; simp⟩
      rw [hr]
      intro hcontra
      have he : e = PyErr.typeErr := by injection hcontra
      exact transStep_ne_typeErr t g hpre (by rw [hstep, he])
    · have hr : transReplay (n+1) t g = .hang := by simp only [transReplay, hstep]
      exact ⟨by rw [hr]; simp, by rw [hr]; simp⟩

theorem transRun_first_z_mono :
    ∀ (lines : List String) (t : GCodeTranslator) (t' : GCodeTranslator) (w : ℝ),
      transRun t lines = .ok t' → t.first_z = some w → t'.first_z = some w := by
  intro lines
  induction lines with
  | nil =>
    intro t t' w h hw
    simp only [transRun, Res.ok.injEq] at h
    subst h
    exact hw
  | cons line rest ih =>
    intro t t' w h hw
    rcases hline : transHandleLine t line with t1 | e | _
    · rw [show transRun t (line :: rest) = transRun t1 rest by
        conv_lhs => unfold transRun
        rw [hline]] at h
      exact ih t1 t' w h (transReplay_first_z_mono 5 t (GCode.parse line) t1 w hline hw)
    · rw [show transRun t (line :: rest) = .exn e by unfold transRun; rw [hline]] at h
      simp at h
    · rw [show transRun t (line :: rest) = .hang by unfold transRun; rw [hline]] at h
      simp at h

theorem transRun_props :
    ∀ (lines : List String) (t : GCodeTranslator), TransInv t →
      transRun t lines ≠ .exn .typeErr ∧
      (∀ t', transRun t lines = .ok t' → TransInv t') := by
  intro lines
  induction lines with
  | nil =>
    intro t hinv
    refine ⟨by simp [transRun], ?_⟩
    intro t' h
    simp only [transRun, Res.ok.injEq] at h
    subst h
    exact hinv
  | cons line rest ih =>
    intro t hinv
    have hpre : StepPre t (GCode.parse line) := fun hlc => Or.inl (hinv hlc)
    have hrep := transReplay_props 5 t (GCode.parse line) hpre
    rcases hline : transHandleLine t line with t1 | e | _
    · have hr : transRun t (line :: rest) = transRun t1 rest := by
        conv_lhs => unfold transRun
        rw [hline]
      exact ⟨by rw [hr]; exact (ih t1 (hrep.2 t1 hline)).1,
        fun t' h => (ih t1 (hrep.2 t1 hline)).2 t' (by rw [← hr]; exact h)⟩
    · have hr : transRun t (line :: rest) = .exn e := by
        unfold transRun; rw [hline]
      refine ⟨?_, by rw [hr]; simp⟩
      rw [hr]
      intro hcontra
      have he : e = PyErr.typeErr := by injection hcontra
      exact hrep.1 (by rw [← he]; exact hline)
    · have hr : transRun t (line :: rest) = .hang := by
        unfold transRun; rw [hline]
      exact ⟨by rw [hr]; simp, by rw [hr]; simp⟩

theorem isTypeErr_eq_false_of_ne {α : Type} {r : Res α} (h : r ≠ .exn .typeErr) :
    r.isTypeErr = false := by
  cases r with
  | ok a => rfl
  | exn e => cases e <;> first | rfl | exact absurd rfl h
  | hang => rfl

/-- **C10.**  Whenever the Translator invokes the height transform,
`first_z` is already set: `LayerCode` is only entered from `LayerHeader`
by replaying a `G0`-with-`Z` command, and that command records `first_z`
before any height computation, so for every geometry model and every
line sequence the run never aborts with the `TypeError` that
`z - self.first_z` would raise on an unset baseline. -/
theorem translator_never_raises_unset_baseline (m : GCodeScanner) (lines : List String) :
    (transRun (transInit m) lines).isTypeErr = false :=
  isTypeErr_eq_false_of_ne
    ((transRun_props lines (transInit m) (by intro habs; simp [transInit] at habs)).1)

/-- **C6** (amended).  In `LayerCode`, a `G0` motion command carrying a
`Z` argument (the code tests the mnemonic `G0` specifically, not both
motion mnemonics) records `layer_z` from that argument and sets
`first_z` to it when `first_z` is still unset; and `first_z`, once set,
is never changed by any later handler call or line. -/
theorem g0_z_records_layer_height (t : GCodeTranslator) (g : GCode) (v : ArgVal) (zv : ℝ)
    (o : Option TransState) (t' : GCodeTranslator)
    (hst : t.state = .LayerCode)
    (hcom : pyStartsWith g.comment ";LAYER:" = false)
    (hc : g.command = "G0")
    (hz : g.getArg 'Z' = some v)
    (hf : floatValR v = .ok zv)
    (hstep : transStep t g = .ok (o, t')) :
    (t'.layer_z = zv ∧
     t'.first_z = (match t.first_z with | none => some zv | some w => some w)) ∧
    (∀ (u u' : GCodeTranslator) (g₂ : GCode) (o₂ : Option TransState) (w : ℝ),
      transStep u g₂ = .ok (o₂, u') → u.first_z = some w → u'.first_z = some w) ∧
    (∀ (u u' : GCodeTranslator) (lines : List String) (w : ℝ),
      transRun u lines = .ok u' → u.first_z = some w → u'.first_z = some w) := by
  refine ⟨?_, fun u u' g₂ o₂ w hs hw => (transStep_ok_props u g₂ o₂ u' hs).2.1 w hw,
    fun u u' lines w hr hw => transRun_first_z_mono lines u u' w hr hw⟩
  have hz' : List.lookup 'Z' g.args = some v := hz
  have hha : g.hasArg 'Z' = true := by unfold GCode.hasArg; rw [hz']; rfl
  have hred : transStep t g = layerCode t g := by
    unfold transStep
    rw [hst]
  rw [hred] at hstep
  unfold layerCode at hstep
  rw [hcom] at hstep
  rw [if_neg (by simp)] at hstep
  rw [if_neg (by rw [hc]; decide)] at hstep
  rw [if_neg (by rw [hc]; decide)] at hstep
  simp only [Res.bind_eq_bind, Res.pure_eq_ok] at hstep
  rw [recordLayerZ_g0z hc hz hf] at hstep
  simp only [Res.ok_bind, Res.bind_eq_ok] at hstep
  obtain ⟨tx, htx, ty, hty, hstep⟩ := hstep
  rw [if_pos ⟨hc, hha⟩] at hstep
  simp only [Res.bind_eq_ok] at hstep
  obtain ⟨zt, hzt, hstep⟩ := hstep
  simp only [Res.ok.injEq, Prod.mk.injEq] at hstep
  obtain ⟨ho, ht'⟩ := hstep
  subst ht'
  exact ⟨rfl, rfl⟩


/-- **C6 counterexample.**  The claim says *every* motion command (`G0`
or `G1`) with a `Z` argument records `layer_z` from that argument —
unconditionally, whatever the state of `first_z`.  A `G1 Z9 X3`
processed in `LayerCode` (zero-depression model, `layer_z = 0.2`) is
handled by the ordinary-move branch: the step succeeds, but the
resulting `layer_z` is still `0.2`, not the `9` the claim requires. -/
theorem g1_with_z_does_not_record_layer_height :
    (Res.map (fun r => r.2.layer_z)
        (transStep transAtLayerCode ⟨"G1", [('Z', .str "9"), ('X', .str "3")], ""⟩) =
      .ok (9 : ℝ)) = False := by
  have htx : targetXR transAtLayerCode ⟨"G1", [('Z', .str "9"), ('X', .str "3")], ""⟩ =
      .ok (3 : ℝ) := by
    have h : targetXR transAtLayerCode ⟨"G1", [('Z', .str "9"), ('X', .str "3")], ""⟩ =
        .ok (((3 : ℕ) : ℚ) : ℝ) := rfl
    rw [h]
    norm_num
  have htz : transAtLayerCode.target_z 3 transAtLayerCode.last_y transAtLayerCode.layer_z =
      .ok transAtLayerCode.layer_z :=
    target_z_td_zero transAtLayerCode 3 transAtLayerCode.last_y transAtLayerCode.layer_z
      0.2 0 0 rfl rfl (by norm_num [transAtLayerCode, modelTDZero]) rfl
      (by norm_num [transAtLayerCode, modelTDZero]) rfl
      (by norm_num [transAtLayerCode, modelTDZero])
  have hstep : transStep transAtLayerCode ⟨"G1", [('Z', .str "9"), ('X', .str "3")], ""⟩ =
      .ok (none, { transAtLayerCode with
                   output := transAtLayerCode.output ++
                     [GCode.setArg ⟨"G1", [('Z', .str "9"), ('X', .str "3")], ""⟩ 'Z'
                       (.num transAtLayerCode.layer_z)],
                   last_x := 3, last_y := transAtLayerCode.last_y }) :=
    layerCode_yeq_eval transAtLayerCode ⟨"G1", [('Z', .str "9"), ('X', .str "3")], ""⟩ 3
      transAtLayerCode.layer_z rfl (by decide) (by decide) (by decide) htx rfl htz rfl
  apply eq_false
  intro hcl
  rw [hstep] at hcl
  simp only [Res.map_ok, Res.ok.injEq] at hcl
  norm_num [transAtLayerCode] at hcl

/-- **C6 witness**: a `G0 Z3` in `LayerCode` with unset baseline
records `layer_z = 3` and sets `first_z = 3`. -/
theorem g0_z_records_layer_height_witness :
    (transAtLayerCodeNoFZ.state = .LayerCode ∧
     pyStartsWith (GCode.mk "G0" [('Z', .str "3")] "").comment ";LAYER:" = false ∧
     (GCode.mk "G0" [('Z', .str "3")] "").command = "G0" ∧
     (GCode.mk "G0" [('Z', .str "3")] "").getArg 'Z' = some (.str "3") ∧
     floatValR (.str "3") = .ok (3 : ℝ) ∧
     transStep transAtLayerCodeNoFZ (GCode.mk "G0" [('Z', .str "3")] "") =
       .ok (none, { model := modelTDZero, state := .LayerCode,
                    output := [⟨"G0", [('Z', .num (3 : ℝ))], ""⟩], first_z := some 3,
                    layer_z := 3, last_x := 0, last_y := 0, last_z := 0, last_e := 0 })) ∧
    ((({ model := modelTDZero, state := .LayerCode,
         output := [⟨"G0", [('Z', .num (3 : ℝ))], ""⟩], first_z := some 3,
         layer_z := 3, last_x := 0, last_y := 0, last_z := 0,
         last_e := 0 } : GCodeTranslator).layer_z = 3 ∧
      ({ model := modelTDZero, state := .LayerCode,
         output := [⟨"G0", [('Z', .num (3 : ℝ))], ""⟩], first_z := some 3,
         layer_z := 3, last_x := 0, last_y := 0, last_z := 0,
         last_e := 0 } : GCodeTranslator).first_z =
        (match transAtLayerCodeNoFZ.first_z with
         | none => some (3 : ℝ)
         | some w => some w)) ∧
     (∀ (u u' : GCodeTranslator) (g₂ : GCode) (o₂ : Option TransState) (w : ℝ),
       transStep u g₂ = .ok (o₂, u') → u.first_z = some w → u'.first_z = some w) ∧
     (∀ (u u' : GCodeTranslator) (lines : List String) (w : ℝ),
       transRun u lines = .ok u' → u.first_z = some w → u'.first_z = some w)) := by
  have hf : floatValR (.str "3") = .ok (3 : ℝ) := by
    have h : floatValR (.str "3") = .ok (((3 : ℕ) : ℚ) : ℝ) := rfl
    rw [h]
    norm_num
  have htX : ∀ u : GCodeTranslator, targetXR u (GCode.mk "G0" [('Z', .str "3")] "") =
      .ok u.last_x := fun u => rfl
  have htY : ∀ u : GCodeTranslator, targetYR u (GCode.mk "G0" [('Z', .str "3")] "") =
      .ok u.last_y := fun u => rfl
  have htz : ∀ u : GCodeTranslator, u.model = modelTDZero → u.first_z = some (3 : ℝ) →
      u.target_z u.last_x u.last_y u.layer_z = .ok u.layer_z := by
    intro u hm hfz
    exact target_z_td_zero u u.last_x u.last_y u.layer_z 3 0 0 hfz (by rw [hm]; rfl)
      (by rw [hm]; norm_num [modelTDZero]) (by rw [hm]; rfl)
      (by rw [hm]; norm_num [modelTDZero]) (by rw [hm]; rfl)
      (by rw [hm]; norm_num [modelTDZero])
  have hstep : transStep transAtLayerCodeNoFZ (GCode.mk "G0" [('Z', .str "3")] "") =
      .ok (none, { model := modelTDZero, state := .LayerCode,
                   output := [⟨"G0", [('Z', .num (3 : ℝ))], ""⟩], first_z := some 3,
                   layer_z := 3, last_x := 0, last_y := 0, last_z := 0, last_e := 0 }) := by
    have hred : transStep transAtLayerCodeNoFZ (GCode.mk "G0" [('Z', .str "3")] "") =
        layerCode transAtLayerCodeNoFZ (GCode.mk "G0" [('Z', .str "3")] "") := rfl
    rw [hred]
    unfold layerCode
    rw [if_neg (by decide), if_neg (by decide), if_neg (by decide)]
    simp only [Res.bind_eq_bind, Res.pure_eq_ok]
    rw [@recordLayerZ_g0z transAtLayerCodeNoFZ (GCode.mk "G0" [('Z', .str "3")] "")
      (.str "3") 3 rfl rfl hf]
    simp only [Res.ok_bind]
    rw [htX]
    simp only [Res.ok_bind]
    rw [htY]
    simp only [Res.ok_bind]
    split
    case isTrue hcd =>
      rw [htz _ rfl rfl]
      simp only [Res.ok_bind]
      rfl
    case isFalse hcd =>
      exact absurd (by decide) hcd
  exact ⟨⟨rfl, rfl, rfl, rfl, hf, hstep⟩,
    g0_z_records_layer_height transAtLayerCodeNoFZ (GCode.mk "G0" [('Z', .str "3")] "")
      (.str "3") 3 none _ rfl rfl rfl rfl hf hstep⟩


/-- **C5.** In the `LayerCode` state, an ordinary motion command (`G0`/`G1`,
not the `G0`-with-`Z` layer-height branch, comment not a `;LAYER:` header)
whose target Y equals `last_y` appends exactly one command to the output —
the original with `Z` overwritten; one whose target Y differs appends exactly
four commands, each the original with `X` and `Y` set to the interpolated
values `last + i*((target-last)/4)` for `i = 1..4` (and `E` likewise
interpolated when the original carries an `E` argument) plus a computed `Z`. -/
theorem layer_code_plain_motion_output (t : GCodeTranslator) (g : GCode)
    (o : Option TransState) (t' : GCodeTranslator) (tx ty : ℝ)
    (hst : t.state = .LayerCode)
    (hcom : pyStartsWith g.comment ";LAYER:" = false)
    (hmot : g.command = "G0" ∨ g.command = "G1")
    (hnotz : ¬(g.command = "G0" ∧ g.hasArg 'Z' = true))
    (htx : targetXR t g = .ok tx)
    (hty : targetYR t g = .ok ty)
    (hstep : transStep t g = .ok (o, t')) :
    (ty = t.last_y → ∃ z : ℝ, t'.output = t.output ++ [g.setArg 'Z' (.num z)]) ∧
    (ty ≠ t.last_y → g.getArg 'E' = none → ∃ z₁ z₂ z₃ z₄ : ℝ,
      t'.output = t.output ++
        [g.updateArgsR [('X', t.last_x + 1 * ((tx - t.last_x) / 4)),
                        ('Y', t.last_y + 1 * ((ty - t.last_y) / 4)), ('Z', z₁)],
         g.updateArgsR [('X', t.last_x + 2 * ((tx - t.last_x) / 4)),
                        ('Y', t.last_y + 2 * ((ty - t.last_y) / 4)), ('Z', z₂)],
         g.updateArgsR [('X', t.last_x + 3 * ((tx - t.last_x) / 4)),
                        ('Y', t.last_y + 3 * ((ty - t.last_y) / 4)), ('Z', z₃)],
         g.updateArgsR [('X', t.last_x + 4 * ((tx - t.last_x) / 4)),
                        ('Y', t.last_y + 4 * ((ty - t.last_y) / 4)), ('Z', z₄)]]) ∧
    (ty ≠ t.last_y → ∀ (ve : ArgVal) (te : ℝ), g.getArg 'E' = some ve → floatValR ve = .ok te →
      ∃ z₁ z₂ z₃ z₄ : ℝ,
      t'.output = t.output ++
        [g.updateArgsR [('X', t.last_x + 1 * ((tx - t.last_x) / 4)),
                        ('Y', t.last_y + 1 * ((ty - t.last_y) / 4)),
                        ('E', t.last_e + 1 * ((te - t.last_e) / 4)), ('Z', z₁)],
         g.updateArgsR [('X', t.last_x + 2 * ((tx - t.last_x) / 4)),
                        ('Y', t.last_y + 2 * ((ty - t.last_y) / 4)),
                        ('E', t.last_e + 2 * ((te - t.last_e) / 4)), ('Z', z₂)],
         g.updateArgsR [('X', t.last_x + 3 * ((tx - t.last_x) / 4)),
                        ('Y', t.last_y + 3 * ((ty - t.last_y) / 4)),
                        ('E', t.last_e + 3 * ((te - t.last_e) / 4)), ('Z', z₃)],
         g.updateArgsR [('X', t.last_x + 4 * ((tx - t.last_x) / 4)),
                        ('Y', t.last_y + 4 * ((ty - t.last_y) / 4)),
                        ('E', t.last_e + 4 * ((te - t.last_e) / 4)), ('Z', z₄)]]) := by
  have hm107 : ¬(g.command = "M107") := by
    rcases hmot with h | h <;> rw [h] <;> decide
  have hmotneg : ¬(g.command ≠ "G0" ∧ g.command ≠ "G1") := by
    rcases hmot with h | h <;> rw [h] <;> decide
  have hred : transStep t g = layerCode t g := by
    unfold transStep
    rw [hst]
  rw [hred] at hstep
  unfold layerCode at hstep
  rw [hcom] at hstep
  rw [if_neg (by simp)] at hstep
  rw [if_neg hm107] at hstep
  rw [if_neg hmotneg] at hstep
  simp only [Res.bind_eq_bind, Res.pure_eq_ok] at hstep
  rw [recordLayerZ_not hnotz] at hstep
  simp only [Res.ok_bind] at hstep
  rw [htx] at hstep
  simp only [Res.ok_bind] at hstep
  rw [hty] at hstep
  simp only [Res.ok_bind] at hstep
  rw [if_neg hnotz] at hstep
  refine ⟨?_, ?_, ?_⟩
  · -- Y unchanged: exactly one clone
    intro hyeq
    rw [if_pos hyeq] at hstep
    simp only [Res.bind_eq_bind, Res.pure_eq_ok, Res.bind_eq_ok, Res.ok_bind] at hstep
    obtain ⟨zt, hzt, t4, hu, hstep⟩ := hstep
    simp only [Res.ok.injEq, Prod.mk.injEq] at hstep
    obtain ⟨ho, ht'⟩ := hstep
    subst ht'
    obtain ⟨_, _, hu_out, _⟩ := updateLastE_ok _ _ _ hu
    exact ⟨zt, hu_out⟩
  · -- Y changed, no E: exactly four interpolated clones
    intro hyne hE
    rw [if_neg hyne] at hstep
    rw [hE] at hstep
    have hip : interpolate 4 [('X', (t.last_x, tx)), ('Y', (t.last_y, ty))] =
        [[('X', t.last_x + 1 * ((tx - t.last_x) / 4)),
          ('Y', t.last_y + 1 * ((ty - t.last_y) / 4))],
         [('X', t.last_x + 2 * ((tx - t.last_x) / 4)),
          ('Y', t.last_y + 2 * ((ty - t.last_y) / 4))],
         [('X', t.last_x + 3 * ((tx - t.last_x) / 4)),
          ('Y', t.last_y + 3 * ((ty - t.last_y) / 4))],
         [('X', t.last_x + 4 * ((tx - t.last_x) / 4)),
          ('Y', t.last_y + 4 * ((ty - t.last_y) / 4))]] := by
      norm_num [interpolate, List.range_succ]
    rw [hip] at hstep
    have hpx : ∀ a b : ℝ, pointVal [('X', a), ('Y', b)] 'X' = .ok a := fun a b => rfl
    have hpy : ∀ a b : ℝ, pointVal [('X', a), ('Y', b)] 'Y' = .ok b := fun a b => rfl
    simp only [layerLoop, hpx, hpy, Res.bind_eq_bind, Res.pure_eq_ok, Res.ok_bind,
      Res.bind_eq_ok] at hstep
    obtain ⟨a, ⟨z₁, hz1, z₂, hz2, z₃, hz3, z₄, hz4, hpair⟩, t4, hu, hstep⟩ := hstep
    injection hpair with hpair
    subst hpair
    simp only [Res.ok.injEq, Prod.mk.injEq] at hstep
    obtain ⟨ho, ht'⟩ := hstep
    subst ht'
    obtain ⟨_, _, hu_out, _⟩ := updateLastE_ok _ _ _ hu
    refine ⟨z₁, z₂, z₃, z₄, ?_⟩
    rw [hu_out]
    simp [List.append_assoc]
  · intro hyne ve te hE hfe
    rw [if_neg hyne] at hstep
    rw [hE] at hstep
    simp only [Res.bind_eq_bind, Res.pure_eq_ok, Res.ok_bind] at hstep
    rw [hfe] at hstep
    simp only [Res.ok_bind, List.cons_append, List.nil_append] at hstep
    have hip : interpolate 4 [('X', (t.last_x, tx)), ('Y', (t.last_y, ty)),
        ('E', (t.last_e, te))] =
        [[('X', t.last_x + 1 * ((tx - t.last_x) / 4)),
          ('Y', t.last_y + 1 * ((ty - t.last_y) / 4)),
          ('E', t.last_e + 1 * ((te - t.last_e) / 4))],
         [('X', t.last_x + 2 * ((tx - t.last_x) / 4)),
          ('Y', t.last_y + 2 * ((ty - t.last_y) / 4)),
          ('E', t.last_e + 2 * ((te - t.last_e) / 4))],
         [('X', t.last_x + 3 * ((tx - t.last_x) / 4)),
          ('Y', t.last_y + 3 * ((ty - t.last_y) / 4)),
          ('E', t.last_e + 3 * ((te - t.last_e) / 4))],
         [('X', t.last_x + 4 * ((tx - t.last_x) / 4)),
          ('Y', t.last_y + 4 * ((ty - t.last_y) / 4)),
          ('E', t.last_e + 4 * ((te - t.last_e) / 4))]] := by
      norm_num [interpolate, List.range_succ]
    rw [hip] at hstep
    have hpx : ∀ a b c : ℝ, pointVal [('X', a), ('Y', b), ('E', c)] 'X' = .ok a :=
      fun a b c => rfl
    have hpy : ∀ a b c : ℝ, pointVal [('X', a), ('Y', b), ('E', c)] 'Y' = .ok b :=
      fun a b c => rfl
    simp only [layerLoop, hpx, hpy, Res.bind_eq_bind, Res.pure_eq_ok, Res.ok_bind,
      Res.bind_eq_ok] at hstep
    obtain ⟨a, ⟨z₁, hz1, z₂, hz2, z₃, hz3, z₄, hz4, hpair⟩, t4, hu, hstep⟩ := hstep
    injection hpair with hpair
    subst hpair
    simp only [Res.ok.injEq, Prod.mk.injEq] at hstep
    obtain ⟨ho, ht'⟩ := hstep
    subst ht'
    obtain ⟨_, _, hu_out, _⟩ := updateLastE_ok _ _ _ hu
    refine ⟨z₁, z₂, z₃, z₄, ?_⟩
    rw [hu_out]
    simp [List.append_assoc]


/-- **C5 witness**: feeding `G1 X10` to a translator in `LayerCode` with
`last_y = 0` (so target Y equals lastY) appends exactly one command. -/
theorem layer_code_plain_motion_output_witness :
    (transAtLayerCode.state = .LayerCode ∧
     pyStartsWith (GCode.mk "G1" [('X', .num 10)] "").comment ";LAYER:" = false ∧
     ((GCode.mk "G1" [('X', .num 10)] "").command = "G0" ∨
      (GCode.mk "G1" [('X', .num 10)] "").command = "G1") ∧
     ¬((GCode.mk "G1" [('X', .num 10)] "").command = "G0" ∧
       (GCode.mk "G1" [('X', .num 10)] "").hasArg 'Z' = true) ∧
     targetXR transAtLayerCode (GCode.mk "G1" [('X', .num 10)] "") = .ok 10 ∧
     targetYR transAtLayerCode (GCode.mk "G1" [('X', .num 10)] "") = .ok 0 ∧
     transStep transAtLayerCode (GCode.mk "G1" [('X', .num 10)] "") =
       .ok (none, { model := modelTDZero, state := .LayerCode,
                    output := [(GCode.mk "G1" [('X', .num 10)] "").setArg 'Z' (.num 0.2)],
                    first_z := some 0.2, layer_z := 0.2, last_x := 10, last_y := 0,
                    last_z := 0, last_e := 0 })) ∧
    (∃ z : ℝ,
      ({ model := modelTDZero, state := .LayerCode,
         output := [(GCode.mk "G1" [('X', .num 10)] "").setArg 'Z' (.num 0.2)],
         first_z := some 0.2, layer_z := 0.2, last_x := 10, last_y := 0,
         last_z := 0, last_e := 0 } : GCodeTranslator).output =
        transAtLayerCode.output ++
          [(GCode.mk "G1" [('X', .num 10)] "").setArg 'Z' (.num z)]) := by
  have hnotz : ¬((GCode.mk "G1" [('X', .num 10)] "").command = "G0" ∧
      (GCode.mk "G1" [('X', .num 10)] "").hasArg 'Z' = true) := by
    intro h
    exact absurd h.1 (by decide)
  have htz : transAtLayerCode.target_z 10 transAtLayerCode.last_y
      transAtLayerCode.layer_z = .ok transAtLayerCode.layer_z :=
    target_z_td_zero transAtLayerCode 10 transAtLayerCode.last_y
      transAtLayerCode.layer_z 0.2 0 0 rfl rfl (by norm_num [transAtLayerCode, modelTDZero])
      rfl (by norm_num [transAtLayerCode, modelTDZero]) rfl
      (by norm_num [transAtLayerCode, modelTDZero])
  have hstep : transStep transAtLayerCode (GCode.mk "G1" [('X', .num 10)] "") =
      .ok (none, { model := modelTDZero, state := .LayerCode,
                   output := [(GCode.mk "G1" [('X', .num 10)] "").setArg 'Z' (.num 0.2)],
                   first_z := some 0.2, layer_z := 0.2, last_x := 10, last_y := 0,
                   last_z := 0, last_e := 0 }) := by
    have hred : transStep transAtLayerCode (GCode.mk "G1" [('X', .num 10)] "") =
        layerCode transAtLayerCode (GCode.mk "G1" [('X', .num 10)] "") := rfl
    rw [hred, layerCode_yeq_eval transAtLayerCode (GCode.mk "G1" [('X', .num 10)] "")
      10 transAtLayerCode.layer_z rfl (by decide) (by intro h; exact h.2 rfl)
      hnotz rfl rfl htz rfl]
    rfl
  exact ⟨⟨rfl, rfl, Or.inr rfl, hnotz, rfl, rfl, hstep⟩,
    (layer_code_plain_motion_output transAtLayerCode (GCode.mk "G1" [('X', .num 10)] "")
      none _ 10 0 rfl rfl (Or.inr rfl) hnotz rfl rfl hstep).1 rfl⟩
